import Mathlib

/-!
Verification development for the pvi screen-layout engine and template
catalogs (`src/pvi/_format/utils.py`).

The Python source is shallowly embedded: pure helpers become Lean
functions, Python `assert` / `raise` / uncaught lookup failures become an
explicit `Err` sum carried in `Except`, mutation of `Bounds` objects and of
the `Screen.components` registry becomes explicit state passing, and
Python `dict` (ordered, upsert semantics) becomes an association list.
Machine integers are `Int` (Python ints are unbounded); Python's
`int(x / 2)` (truncation toward zero) is `Int.tdiv x 2`.

The component data model (`pvi.device`: signals, widgets, groups) is not
part of the sources under verification; it is modelled from the spec where
indicated.
-/

/-- Errors raised by the Python code, by kind.  `assertionError` is a
failed `assert`, `keyError` an uncaught dictionary lookup failure,
`notImplementedError` a `raise NotImplementedError`, `indexError` an
out-of-range subscript, `valueError` a `raise ValueError`, `nameError` an
unbound local, and `recursionLimit` is the embedding's fuel bound for
`SignalRef` chains (from an empty registry, chains have length at most
one, so any fuel of at least 2 is exact). -/
inductive Err where
  | assertionError (msg : String)
  | keyError (key : String)
  | notImplementedError
  | indexError
  | valueError (msg : String)
  | nameError
  | recursionLimit
  deriving Repr, DecidableEq

/-- Structure `Bounds`: rectangle with position and size (`utils.py` lines 34-68). -/
structure Bounds where
  x : Int := 0
  y : Int := 0
  w : Int := 0
  h : Int := 0
  deriving Repr, DecidableEq

/-- Method `Bounds.split` (lines 44-50): split horizontally into a `width`-wide
left part and the remainder, separated by `spacing`.  The Python
`assert to_split < self.w` becomes the error case. -/
def Bounds.split (b : Bounds) (width spacing : Int) : Except Err (Bounds × Bounds) :=
  if width + spacing < b.w then
    .ok (⟨b.x, b.y, width, b.h⟩,
         ⟨b.x + width + spacing, b.y, b.w - width - spacing, b.h⟩)
  else
    .error (.assertionError "cannot split")

/-- Method `Bounds.square` (lines 52-60): largest centred square fitting in `b`;
`int((self.w - size) / 2)` is truncation toward zero, i.e. `Int.tdiv`. -/
def Bounds.square (b : Bounds) : Bounds :=
  let size := min b.w b.h
  { x := b.x + Int.tdiv (b.w - size) 2
    y := b.y + Int.tdiv (b.h - size) 2
    w := size
    h := size }

/-- Method `Bounds.added_to` (lines 62-68): componentwise addition. -/
def Bounds.added_to (b other : Bounds) : Bounds :=
  ⟨b.x + other.x, b.y + other.y, b.w + other.w, b.h + other.h⟩

/-- Helper `with_title` (lines 487-490): offset a rectangle by a title margin. -/
def with_title (spacing title_height : Int) (b : Bounds) : Bounds :=
  (Bounds.mk spacing (spacing + title_height) (2 * spacing)
    (2 * spacing + title_height)).added_to b

/-- Python `dict` as an insertion-ordered association list: `pyUpsert`
overwrites in place when the key exists, else appends (CPython dict
assignment semantics). -/
def pyUpsert {α : Type} (m : List (String × α)) (k : String) (v : α) : List (String × α) :=
  match m with
  | [] => [(k, v)]
  | (k₀, v₀) :: rest =>
    if k₀ = k then (k₀, v) :: rest else (k₀, v₀) :: pyUpsert rest k v

/-- Lookup in an insertion-ordered association list (keys are unique by
construction of `pyUpsert`). -/
def lookupA {α : Type} (m : List (String × α)) (k : String) : Option α :=
  match m with
  | [] => none
  | (k₀, v₀) :: rest => if k₀ = k then some v₀ else lookupA rest k

/-- Same for `Int`-keyed dicts (the `columns` map of `Screen.screen`). -/
def pyUpsertI {α : Type} (m : List (Int × α)) (k : Int) (v : α) : List (Int × α) :=
  match m with
  | [] => [(k, v)]
  | (k₀, v₀) :: rest =>
    if k₀ = k then (k₀, v) :: rest else (k₀, v₀) :: pyUpsertI rest k v

/-- Maximum of a list of integers, `0` for the empty list (Python
`max(...)` is only reached on nonempty lists in the source; both `max_x`
and `max_y` return `0` for no widgets). -/
def maxList : List Int → Int
  | [] => 0
  | x :: xs => xs.foldl max x

/-! ## Device component model

`pvi.device` is not among the sources; the following three types are
modelled from the spec (sections 3 and 6): widget variants `LED`,
`TextRead` (carrying a line count), `CheckBox`, `ComboBox`, `TextWrite`
(carrying a line count); group layouts (grid with a `labelled` flag being
the only supported one); and the component variants `SignalR`, `SignalW`,
`SignalRW`, `SignalX`, `SignalRef` and `Group`. -/

/-- Modelled from the spec: the read/write widget variants accepted by
`ScreenWidgets.pv_widget` (`LED`, `TextRead`, `CheckBox`, `ComboBox`,
`TextWrite`); the text widgets carry a `lines` count. -/
inductive PVW where
  | led
  | textRead (lines : Int)
  | checkBox
  | comboBox
  | textWrite (lines : Int)
  deriving Repr, DecidableEq

/-- Modelled from the spec: a group's layout descriptor.  `grid` is the
only supported arrangement; `other` stands for any non-grid layout. -/
inductive GroupLayout where
  | grid (labelled : Bool)
  | other (kind : String)
  deriving Repr, DecidableEq

/-- Modelled from the spec: the polymorphic `Component` variants.  A
`signalRW` has a write widget plus optional read side; `signalX` is an
action with label and value; `signalRef` is a named back-reference;
`group` owns ordered children and a layout. -/
inductive Component where
  | signalR (name pv : String) (widget : Option PVW)
  | signalW (name pv : String) (widget : Option PVW)
  | signalRW (name pv : String) (widget : Option PVW)
      (read_pv : Option String) (read_widget : Option PVW)
  | signalX (name pv label value : String)
  | signalRef (name : String)
  | group (name : String) (layout : GroupLayout) (children : List Component)
  deriving Repr

/-- The `name` attribute of a component. -/
def Component.cname : Component → String
  | .signalR n _ _ => n
  | .signalW n _ _ => n
  | .signalRW n _ _ _ _ => n
  | .signalX n _ _ _ => n
  | .signalRef n => n
  | .group n _ _ => n

/-- Modelled from the spec: `get_label()`.  Actions carry an explicit
label; for the other components the label is derived from the name. -/
def Component.get_label : Component → String
  | .signalX _ _ lb _ => lb
  | c => c.cname

/-- Whether a component is a `SignalRef` (the registry stores every other
kind, line 376). -/
def Component.isRef : Component → Bool
  | .signalRef _ => true
  | _ => false

/-! ## Widget factories -/

/-- The `WidgetFactory` variants produced by the layout engine: label,
PV-bound widget (tagged with which widget class was chosen), action
button, and group (screen or group container with children).  Each holds
the `Bounds` it was placed at. -/
inductive WidgetFactory where
  | label (bounds : Bounds) (text : String)
  | pvw (kind : PVW) (bounds : Bounds) (pv : String)
  | action (bounds : Bounds) (label pv value : String)
  | group (bounds : Bounds) (title : String) (children : List WidgetFactory)
  deriving Repr

/-- The `bounds` field of a factory. -/
def WidgetFactory.bounds : WidgetFactory → Bounds
  | .label b _ => b
  | .pvw _ b _ => b
  | .action b _ _ _ => b
  | .group b _ _ => b

/-- In-place mutation of a factory's own bounds
(`group.bounds.w += ...`, line 335). -/
def WidgetFactory.updBounds (f : WidgetFactory) (g : Bounds → Bounds) : WidgetFactory :=
  match f with
  | .label b t => .label (g b) t
  | .pvw k b p => .pvw k (g b) p
  | .action b l p v => .action (g b) l p v
  | .group b t cs => .group (g b) t cs

/-- Helper `max_x` (lines 209-213): rightmost extent of a widget list plus
spacing, `0` when empty. -/
def max_x (ws : List WidgetFactory) (spacing : Int := 0) : Int :=
  match ws with
  | [] => 0
  | _ => maxList (ws.map fun w => w.bounds.x + w.bounds.w + spacing)

/-- Helper `max_y` (lines 216-220): bottommost extent of a widget list plus
spacing, `0` when empty. -/
def max_y (ws : List WidgetFactory) (spacing : Int := 0) : Int :=
  match ws with
  | [] => 0
  | _ => maxList (ws.map fun w => w.bounds.y + w.bounds.h + spacing)

/-- Helper `next_x_pos` (lines 223-226). -/
def next_x_pos (w : WidgetFactory) (spacing : Int := 0) : Int :=
  w.bounds.x + w.bounds.w + spacing

/-- Helper `next_y_pos` (lines 229-232). -/
def next_y_pos (w : WidgetFactory) (spacing : Int := 0) : Int :=
  w.bounds.y + w.bounds.h + spacing

/-- Configuration `LayoutProperties` (lines 235-249). -/
structure LayoutProperties where
  spacing : Int
  title_height : Int
  max_height : Int
  group_label_height : Int
  label_width : Int
  widget_width : Int
  widget_height : Int
  group_widget_indent : Int := 0
  group_width_offset : Int := 0

/-- Screen configuration: the layout properties, the PV name `prefix`
(field `pfx` here), and the two `sized` callbacks bound into the
`screen_cls` and `group_cls` factories via `GroupFactory.from_template`
(the dataclass `__post_init__` replaces the factory's `w`/`h` by those of
`sized(bounds)`, line 202-204). -/
structure ScreenCfg where
  layout : LayoutProperties
  pfx : String
  screenSized : Bounds → Bounds := id
  groupSized : Bounds → Bounds := id

/-- The `__post_init__` of a formattable group factory: keep `x`,`y`,
replace `w`,`h` by those of `sized bounds`. -/
def applySized (sized : Bounds → Bounds) (b : Bounds) : Bounds :=
  { b with w := (sized b).w, h := (sized b).h }

/-- The registry `Screen.components`: name to last-seen component. -/
abbrev Registry := List (String × Component)

/-- Helper `indent_widget` (lines 370-373): shift `x` by the indentation. -/
def indent_widget (b : Bounds) (indentation : Int) : Bounds :=
  { b with x := b.x + indentation }

/-- Method `ScreenWidgets.pv_widget` (lines 263-291): pick the factory class for
the widget variant; for `TextRead`/`TextWrite` the **argument** `Bounds`
has its height multiplied by the line count in place (`bounds.h *=
widget.lines`) before being stored in the factory.  The second result is
the state of the caller-supplied `Bounds` object after the call. -/
def pv_widget (widget : PVW) (bounds : Bounds) (pv : String) (pfx : String) :
    WidgetFactory × Bounds :=
  let b := match widget with
    | .textRead n => { bounds with h := bounds.h * n }
    | .textWrite n => { bounds with h := bounds.h * n }
    | _ => bounds
  (.pvw widget b (pfx ++ pv), b)

/-- Python truthiness of a bool used as an int (`indent_widget(bounds,
add_label)` in the `SignalRef` recursion passes `add_label` where the
signature expects `group_widget_indent`). -/
def pyBoolInt (b : Bool) : Int := if b then 1 else 0

namespace Screen

/-- Method `Screen.component` (lines 356-419), with the mutable parts explicit:
the registry is threaded, and the generator is fully consumed into a
list (call sites wrap it in `list(...)`).  Non-`SignalRef` components are
registered first; with `add_label` a label factory is yielded from a
`label_width` slice split off the left; then exactly one of the signal
branches applies, in the `elif` order of the source.  A `SignalRef` is a
raw dictionary lookup (`self.components[c.name]`, a `KeyError` when
absent) followed by recursion - note the source passes `add_label` in the
positional slot of `group_widget_indent` there.  `fuel` bounds the ref
chain; from an empty registry only non-ref components are ever stored, so
chains have depth at most one. -/
def component (cfg : ScreenCfg) (fuel : Nat) (reg₀ : Registry) (c : Component)
    (bounds₀ : Bounds) (gwi : Int) (add_label : Bool) :
    Except Err (List WidgetFactory × Registry) :=
  let sp := cfg.layout.spacing
  let reg := if c.isRef then reg₀ else pyUpsert reg₀ c.cname c
  let pre : Except Err (List WidgetFactory × Bounds) :=
    if add_label then
      match bounds₀.split cfg.layout.label_width sp with
      | .error e => .error e
      | .ok (left, rest) =>
        .ok ([.label (indent_widget left gwi) c.get_label], rest)
    else
      .ok ([], bounds₀)
  match pre with
  | .error e => .error e
  | .ok (lab, bounds) =>
    let body : Except Err (List WidgetFactory × Registry) :=
      match c with
      | .signalX _ pv lb v =>
        .ok ([.action (indent_widget bounds gwi) lb pv v], reg)
      | .signalR _ pv (some w) =>
        .ok ([(pv_widget w (indent_widget bounds gwi) pv cfg.pfx).1], reg)
      | .signalRW _ pv (some w) (some rpv) (some rw) =>
        match bounds.split (Int.tdiv (bounds.w - sp) 2) sp with
        | .error e => .error e
        | .ok (left, right) =>
          .ok ([(pv_widget w (indent_widget left gwi) pv cfg.pfx).1,
                (pv_widget rw (indent_widget right gwi) rpv cfg.pfx).1], reg)
      | .signalRW _ pv (some w) _ _ =>
        .ok ([(pv_widget w (indent_widget bounds gwi) pv cfg.pfx).1], reg)
      | .signalW _ pv (some w) =>
        .ok ([(pv_widget w (indent_widget bounds gwi) pv cfg.pfx).1], reg)
      | .signalRef nm =>
        match lookupA reg nm with
        | none => .error (.keyError nm)
        | some c' =>
          match fuel with
          | 0 => .error .recursionLimit
          | f + 1 =>
            component cfg f reg c' (indent_widget bounds gwi) (pyBoolInt add_label) true
      | _ => .ok ([], reg)
    match body with
    | .error e => .error e
    | .ok (ws, reg') => .ok (lab ++ ws, reg')

/-- Method `Screen.make_component_widgets` (lines 446-476).  The second result is
the caller-supplied `bounds` object after the call (it is mutated in
place: `bounds.y` always, plus `bounds.x` on retry).  When the first
attempt's `max_y` exceeds `parent_bounds.h` the same component is laid
out again at `x = max_x(first attempt widgets, spacing)`, `y = 0`, and
`bounds.y` is then `next_y_pos(widgets[0], spacing)`. -/
def make_component_widgets (cfg : ScreenCfg) (fuel : Nat) (reg : Registry)
    (c : Component) (bounds parent_bounds : Bounds) (add_label : Bool := true)
    (group_widget_indent : Int := 0) :
    Except Err (List WidgetFactory × Bounds × Registry) :=
  let sp := cfg.layout.spacing
  match component cfg fuel reg c bounds group_widget_indent add_label with
  | .error e => .error e
  | .ok (ws, reg₁) =>
    let b₁ := { bounds with y := max_y ws sp }
    if max_y ws > parent_bounds.h then
      let b₂ := { b₁ with x := max_x ws sp, y := 0 }
      match component cfg fuel reg₁ c b₂ group_widget_indent add_label with
      | .error e => .error e
      | .ok (ws₂, reg₂) =>
        match ws₂ with
        | [] => .error .indexError
        | w :: _ => .ok (ws₂, { b₂ with y := next_y_pos w sp }, reg₂)
    else
      .ok (ws, b₁, reg₁)

/-- The child loop of `Screen.group` (lines 428-440): fold the children
through `make_component_widgets`, sharing one `child_bounds` object; a
nested `Group` raises `NotImplementedError`. -/
def groupChildren (cfg : ScreenCfg) (fuel : Nat) (parent_bounds : Bounds)
    (labelled : Bool) :
    Bounds × List WidgetFactory × Registry → List Component →
    Except Err (Bounds × List WidgetFactory × Registry)
  | st, [] => .ok st
  | (cb, ws, reg), c :: rest =>
    match c with
    | .group _ _ _ => .error .notImplementedError
    | _ =>
      match make_component_widgets cfg fuel reg c cb parent_bounds labelled 0 with
      | .error e => .error e
      | .ok (ws', cb', reg') =>
        groupChildren cfg fuel parent_bounds labelled (cb', ws ++ ws', reg') rest

/-- Method `Screen.group` (lines 421-444): children are laid out in one column
starting from a fresh `child_bounds` of the full row width; only a `Grid`
layout is supported (`assert isinstance(group.layout, Grid)`); afterwards
the group's bounds shrink-wrap to the children (`bounds.h = max_y`,
`bounds.w = max_x`) and the `group_cls` `__post_init__` applies the
`sized` adjustment to `w`/`h`. -/
def group (cfg : ScreenCfg) (fuel : Nat) (reg : Registry) (gname : String)
    (glayout : GroupLayout) (children : List Component) (bounds : Bounds) :
    Except Err (WidgetFactory × Registry) :=
  let full_w := cfg.layout.label_width + cfg.layout.widget_width + 2 * cfg.layout.spacing
  let child_bounds : Bounds := { w := full_w, h := cfg.layout.widget_height }
  match glayout with
  | .grid labelled =>
    match groupChildren cfg fuel bounds labelled (child_bounds, [], reg) children with
    | .error e => .error e
    | .ok (_, widgets, reg') =>
      let b := { bounds with h := max_y widgets, w := max_x widgets }
      .ok (.group (applySized cfg.groupSized b)
            (Component.group gname glayout children).get_label widgets, reg')
  | _ => .error (.assertionError "Can only do grid at the moment")

/-- The column loop of `Screen.screen` (lines 325-333): try each known
column in insertion order, laying the group at `(col_x, col_y)` with
height constrained to `max_height`; `break` on the first attempt whose
bottom fits within `max_height`.  When no attempt fits, the loop leaves
the *last* attempt in the `group` variable (Python `for` without `break`),
which is then placed; the registry is threaded through every attempt
actually executed.  An empty column dict would leave `group` unbound
(`NameError`); the dict starts at one entry and never shrinks. -/
def tryColumns (cfg : ScreenCfg) (fuel : Nat) (gname : String)
    (glayout : GroupLayout) (children : List Component) :
    Registry → List (Int × Int) → Except Err (WidgetFactory × Registry)
  | _, [] => .error .nameError
  | reg, (cx, cy) :: rest =>
    match group cfg fuel reg gname glayout children ⟨cx, cy, 0, cfg.layout.max_height⟩ with
    | .error e => .error e
    | .ok (gf, reg') =>
      if gf.bounds.h + gf.bounds.y ≤ cfg.layout.max_height then .ok (gf, reg')
      else
        match rest with
        | [] => .ok (gf, reg')
        | _ => tryColumns cfg fuel gname glayout children reg' rest

/-- The mutable state of one `Screen.screen` call: the registry, the
`columns` dict (x-offset to column bottom, insertion-ordered), the
accumulated `screen_widgets`, and the shared `widget_bounds` object
reused across top-level leaf components. -/
structure ScrState where
  reg : Registry
  cols : List (Int × Int)
  widgets : List WidgetFactory
  wb : Bounds

/-- One iteration of the `Screen.screen` main loop (lines 321-350).  For a
`Group`: first-fit over the columns via `tryColumns`, then
`bounds.w += group_width_offset`, append, record the accepted column's
new bottom (`next_y_pos(group, spacing)`) and upsert a fresh empty column
at `max_x(screen_widgets, spacing)`.  For a leaf: `make_component_widgets`
against the shared `widget_bounds` and the screen bounds (whose height is
`max_height` throughout the loop). -/
def screenStep (cfg : ScreenCfg) (fuel : Nat) (st : ScrState) (c : Component) :
    Except Err ScrState :=
  let sp := cfg.layout.spacing
  match c with
  | .group gname glayout children =>
    match tryColumns cfg fuel gname glayout children st.reg st.cols with
    | .error e => .error e
    | .ok (gf, reg') =>
      let gf' := gf.updBounds fun b => { b with w := b.w + cfg.layout.group_width_offset }
      let widgets' := st.widgets ++ [gf']
      let cols₁ := pyUpsertI st.cols gf'.bounds.x (next_y_pos gf' sp)
      let cols₂ := pyUpsertI cols₁ (max_x widgets' sp) 0
      .ok { reg := reg', cols := cols₂, widgets := widgets', wb := st.wb }
  | _ =>
    match make_component_widgets cfg fuel st.reg c st.wb
        ⟨0, 0, 0, cfg.layout.max_height⟩ true cfg.layout.group_widget_indent with
    | .error e => .error e
    | .ok (ws, wb', reg') =>
      .ok { reg := reg', cols := st.cols, widgets := st.widgets ++ ws, wb := wb' }

/-- The fold of `screenStep` over the top-level components. -/
def screenLoop (cfg : ScreenCfg) (fuel : Nat) :
    ScrState → List Component → Except Err ScrState
  | st, [] => .ok st
  | st, c :: rest =>
    match screenStep cfg fuel st c with
    | .error e => .error e
    | .ok st' => screenLoop cfg fuel st' rest

/-- Method `Screen.screen` (lines 303-354).  `reg₀` is the instance's
`components` registry at entry (empty for a fresh `Screen`); the columns
dict starts at `{0: 0}`, `widget_bounds` at the full row width and widget
height.  Afterwards the screen bounds become the bounding box of all
placed widgets and the `screen_cls` `__post_init__` applies the screen
`sized` adjustment. -/
def screen (cfg : ScreenCfg) (fuel : Nat) (reg₀ : Registry)
    (components : List Component) (title : String) : Except Err WidgetFactory :=
  let full_w := cfg.layout.label_width + cfg.layout.widget_width + 2 * cfg.layout.spacing
  let st₀ : ScrState :=
    { reg := reg₀, cols := [(0, 0)], widgets := []
      wb := { w := full_w, h := cfg.layout.widget_height } }
  match screenLoop cfg fuel st₀ components with
  | .error e => .error e
  | .ok st =>
    let b : Bounds := { x := 0, y := 0, w := max_x st.widgets, h := max_y st.widgets }
    .ok (.group (applySized cfg.screenSized b) title st.widgets)

end Screen

/-- The registry-free part of the `Screen.screen` loop state: the columns
dict, the accumulated widgets and the shared `widget_bounds` object. -/
def Screen.ScrState.obs (st : Screen.ScrState) :
    List (Int × Int) × List WidgetFactory × Bounds :=
  (st.cols, st.widgets, st.wb)

/-! ## Text template catalogs (`EdlTemplate`, `AdlTemplate`)

Python strings are embedded as `String`; the MULTILINE regex machinery of
`EdlTemplate.set` / `AdlTemplate.set` operates line-anchored patterns, so
it is embedded by decomposing the string into its newline-separated lines
(`pyLines` / `unLines` are mutually inverse on newline-free lines).  The
external regex engine used by `search` is an explicit parameter
(`reSearch pattern text`): the searches performed by the formatters use
plain-literal patterns, for which `re.search` is substring containment. -/

/-- Opening brace character (written by code, kept out of string
literals). -/
def braceO : Char := '\x7b'

/-- Closing brace character. -/
def braceC : Char := '\x7d'

/-- Scan for the needle at every suffix of the haystack. -/
def containsLC (needle : List Char) : List Char → Bool
  | [] => needle.isPrefixOf []
  | h :: t => needle.isPrefixOf (h :: t) || containsLC needle t

/-- Python `needle in hay` (substring containment). -/
def strContains (hay needle : String) : Bool :=
  containsLC needle.data hay.data

/-- One split step for `splitLC`: split the character list at every
occurrence of the (nonempty) separator `s0 :: st`, left to right,
non-overlapping.  `fuel` only bounds the recursion (each step consumes at
least one character, so `hs.length` is always enough) and keeps the
definition structurally recursive, hence kernel-evaluable. -/
def splitLCGo (s0 : Char) (st : List Char) : Nat → List Char → List (List Char)
  | 0, hs => [hs]
  | _ + 1, [] => [[]]
  | f + 1, h :: t =>
    if (s0 :: st).isPrefixOf (h :: t) then
      [] :: splitLCGo s0 st f (t.drop st.length)
    else
      match splitLCGo s0 st f t with
      | [] => [[h]]
      | p :: ps => (h :: p) :: ps

/-- Python `str.split(sep)` on character lists (the separator is nonempty
at every use site; an empty separator returns the whole input). -/
def splitLC (sep : List Char) (hs : List Char) : List (List Char) :=
  match sep with
  | [] => [hs]
  | s0 :: st => splitLCGo s0 st hs.length hs

/-- Python `str.split(sep)` as a `String` operation. -/
def pySplit (s sep : String) : List String :=
  (splitLC sep.data s.data).map fun cs => String.mk cs

/-- Break at the first occurrence of `sep`: the part before it and the
part after it (`none` when absent) - Python `str.split(sep, 1)`. -/
def breakLC (sep : List Char) : List Char → Option (List Char × List Char)
  | [] => if sep.isPrefixOf ([] : List Char) then some ([], []) else none
  | h :: t =>
    if sep.isPrefixOf (h :: t) then some ([], (h :: t).drop sep.length)
    else
      match breakLC sep t with
      | some (p, r) => some (h :: p, r)
      | none => none

/-- Helper `split_with_sep` (lines 483-484) without maxsplit: split on `sep` and
re-append `sep` to every part. -/
def split_with_sep (text sep : String) : List String :=
  (pySplit text sep).map (· ++ sep)

/-- Call `split_with_sep(text, sep, 1)` followed by the 2-tuple unpacking of
`EdlTemplate.__init__`: the first part and the (sep-joined) remainder,
each with `sep` re-appended; `none` when `sep` does not occur (Python
unpacking of a 1-element list raises `ValueError`). -/
def splitOnceSep (text sep : String) : Option (String × String) :=
  match breakLC sep.data text.data with
  | some (p, r) => some (String.mk p ++ sep, String.mk r ++ sep)
  | none => none

/-- The newline character. -/
def nlChar : Char := '\n'

/-- Lines of a Python string (split on the newline character). -/
def pyLines (s : String) : List String :=
  (splitLC [nlChar] s.data).map fun cs => String.mk cs

/-- Rejoin lines with newlines. -/
def unLines (ls : List String) : String := String.intercalate "\n" ls

/-- Python `str.splitlines()` for newline-only strings: like `splitOn`
but without the empty tail produced by a trailing newline, and empty for
the empty string. -/
def pySplitlines (s : String) : List String :=
  if s = "" then []
  else
    let ls := pyLines s
    if ls.getLast? = some "" then ls.dropLast else ls

/-- A property value handed to a template `set` call: Python passes
strings and integers; strings are quoted on substitution, integers are
not. -/
inductive PropVal where
  | str (v : String)
  | int (v : Int)
  deriving Repr, DecidableEq

/-- Python `str(value)`. -/
def PropVal.pyStr : PropVal → String
  | .str s => s
  | .int n => toString n

/-- The single-line rendering: `f'"{value}"'` for strings, `str(value)`
otherwise (lines 512-513). -/
def renderQ : PropVal → String
  | .str s => "\"" ++ s ++ "\""
  | .int n => toString n

/-- A line matches the MULTILINE pattern `^item .*$` iff it starts with
the item name followed by a space (`.` does not cross newlines, `$`
matches the line end). -/
def slMatches (item l : String) : Bool :=
  (item ++ " ").data.isPrefixOf l.data

/-- Call `pattern.subn` for the single-line pattern: replace every matching
line wholesale, and count the matches. -/
def slSubn (item repl : String) (ls : List String) : List String × Nat :=
  (ls.map fun l => if slMatches item l then repl else l,
   (ls.filter (slMatches item)).length)

/-- Whether the first closing brace of `r` is its last character (the
regex `[^}]*}$` admits no closing brace before the final one, and `$`
anchors it to the line end).  Only meaningful when `r` contains a closing
brace. -/
def firstBraceLast (r : String) : Bool :=
  (r.data.takeWhile (· ≠ braceC)).length + 1 == r.data.length

/-- Scan forward from a block-opening line for the end of a
`^item {[^}]*}$` match: skip brace-free lines; the first line containing
a closing brace completes the match only if that brace ends the line.
Returns how many further lines the match spans. -/
def mlScanEnd : List String → Option Nat
  | [] => none
  | l :: rest =>
    if l.data.any (· == braceC) then
      if firstBraceLast l then some 0 else none
    else (mlScanEnd rest).map (· + 1)

/-- Attempt to match the MULTILINE-DOTALL pattern `^item {[^}]*}$` at the
line `l` (with `rest` following).  Returns the number of extra lines the
match consumes. -/
def mlMatchAt (item l : String) (rest : List String) : Option Nat :=
  if (item ++ " " ++ braceO.toString).data.isPrefixOf l.data then
    let r := String.mk (l.data.drop (item.data.length + 2))
    if r.data.any (· == braceC) then
      if firstBraceLast r then some 0 else none
    else (mlScanEnd rest).map (· + 1)
  else none

/-- Call `pattern.subn` for the multiline block pattern: replace every
(non-overlapping, leftmost) matched block by the replacement lines and
count the matches.  `fuel` only bounds the recursion (each step consumes
at least one line, so the line count is always enough). -/
def mlSubnGo (item : String) (repl : List String) :
    Nat → List String → List String × Nat
  | 0, ls => (ls, 0)
  | _ + 1, [] => ([], 0)
  | f + 1, l :: rest =>
    match mlMatchAt item l rest with
    | some k =>
      let (tl, n) := mlSubnGo item repl f (rest.drop k)
      (repl ++ tl, n + 1)
    | none =>
      let (tl, n) := mlSubnGo item repl f rest
      (l :: tl, n)

/-- Call `pattern.subn` for the multiline block pattern. -/
def mlSubn (item : String) (repl : List String) (ls : List String) :
    List String × Nat :=
  mlSubnGo item repl ls.length ls

/-- Check `multiline.search(t)`: does the block pattern match anywhere. -/
def mlHas (item : String) (ls : List String) : Bool :=
  (mlSubn item [] ls).2 ≠ 0

/-- One iteration of the `EdlTemplate.set` property loop (lines 503-515):
if the multiline block pattern matches, the value is re-rendered as a
brace-delimited block of quoted lines and substituted for every matched
block; otherwise the single-line pattern is used with the quoted/plain
rendering.  `assert n == 1` becomes the error case. -/
def edlSetStep (t : String) (item : String) (v : PropVal) : Except Err String :=
  let ls := pyLines t
  if mlHas item ls then
    let blk := (item ++ " " ++ braceO.toString) ::
      (pySplitlines v.pyStr).map (fun x => "  \"" ++ x ++ "\"") ++ [braceC.toString]
    let (ls₂, n) := mlSubn item blk ls
    if n = 1 then .ok (unLines ls₂)
    else .error (.assertionError ("No replacements made for " ++ item))
  else
    let (ls₂, n) := slSubn item (item ++ " " ++ renderQ v) ls
    if n = 1 then .ok (unLines ls₂)
    else .error (.assertionError ("No replacements made for " ++ item))

/-- The property dict of `EdlTemplate.set` after the bounds keys `x`,
`y`, `w`, `h` are assigned (dict upsert, lines 500-502). -/
def edlProps (props : List (String × PropVal)) (b : Option Bounds) :
    List (String × PropVal) :=
  match b with
  | none => props
  | some bb =>
    pyUpsert (pyUpsert (pyUpsert (pyUpsert props "x" (.int bb.x))
      "y" (.int bb.y)) "w" (.int bb.w)) "h" (.int bb.h)

/-- The property loop of `EdlTemplate.set`. -/
def edlSetGo : String → List (String × PropVal) → Except Err String
  | t, [] => .ok t
  | t, (k, v) :: rest =>
    match edlSetStep t k v with
    | .error e => .error e
    | .ok t' => edlSetGo t' rest

/-- Method `EdlTemplate.set` (lines 499-516): substitute the bounds fields and
the named properties into a copy of the fragment (Python strings are
immutable, so the result is a fresh string and the input is untouched). -/
def edlSet (t : String) (b : Option Bounds) (props : List (String × PropVal)) :
    Except Err String :=
  edlSetGo t (edlProps props b)

/-- An `EdlTemplate`/`AdlTemplate` catalog: the screen fragment and the
widget fragments extracted at construction. -/
structure TextCatalog where
  screen : String
  widgets : List String
  deriving Repr, DecidableEq

/-- Constructor `EdlTemplate.__init__` (lines 494-497): reject grouped-widget syntax
(`assert "endGroup" not in text`), split off the screen fragment at the
`endScreenProperties` delimiter (2-tuple unpacking), then split the rest
into widget fragments. -/
def edlInit (text : String) : Except Err TextCatalog :=
  if strContains text "endGroup" then
    .error (.assertionError "cannot do groups")
  else
    match splitOnceSep text "\nendScreenProperties\n" with
    | none => .error (.valueError "unpacking mismatch")
    | some (scr, rest) =>
      .ok { screen := scr, widgets := split_with_sep rest "\nendObjectProperties\n" }

/-- Constructor `AdlTemplate.__init__` (lines 525-529): reject grouped-widget syntax
(`assert "children {" not in text`), then the first three brace-closed
chunks form the screen fragment and the rest are the widget fragments. -/
def adlInit (text : String) : Except Err TextCatalog :=
  if strContains text ("children " ++ braceO.toString) then
    .error (.assertionError "cannot do groups")
  else
    let ws := split_with_sep text ("\n" ++ braceC.toString ++ "\n")
    .ok { screen := String.join (ws.take 3), widgets := ws.drop 3 }

/-- Methods `EdlTemplate.search` / `AdlTemplate.search` (lines 518-521, 546-549):
filter the widget fragments by the regex, demand exactly one match.
`reSearch pattern text` stands for `re.search`; for the plain-literal
patterns used by the formatters it is substring containment. -/
def textSearch (reSearch : String → String → Bool) (widgets : List String)
    (key : String) : Except Err String :=
  match widgets.filter (fun t => reSearch key t) with
  | [t] => .ok t
  | ms => .error (.assertionError
      ("Got " ++ toString ms.length ++ " matches for " ++ key))

/-- A line matches `^(\s*item)=.*$` iff after its leading whitespace it
continues with the item name and an equals sign. -/
def adlMatches (item l : String) : Bool :=
  (item ++ "=").data.isPrefixOf (l.data.dropWhile Char.isWhitespace)

/-- Call `pattern.subn(r"\g<1>=" + value, t)` for the ADL single-line pattern:
the kept group is the leading whitespace plus the item name. -/
def adlSubn (item val : String) (ls : List String) : List String × Nat :=
  (ls.map fun l =>
    if adlMatches item l then
      String.mk (l.data.takeWhile Char.isWhitespace) ++ item ++ "=" ++ val
    else l,
   (ls.filter (adlMatches item)).length)

/-- One iteration of the `AdlTemplate.set` property loop (lines 537-543). -/
def adlSetStep (t : String) (item : String) (v : PropVal) : Except Err String :=
  let (ls₂, n) := adlSubn item (renderQ v) (pyLines t)
  if n = 1 then .ok (unLines ls₂)
  else .error (.assertionError ("No replacements made for " ++ item))

/-- The property dict of `AdlTemplate.set` after the bounds keys `x`,
`y`, `width`, `height` are assigned (lines 532-536). -/
def adlProps (props : List (String × PropVal)) (b : Option Bounds) :
    List (String × PropVal) :=
  match b with
  | none => props
  | some bb =>
    pyUpsert (pyUpsert (pyUpsert (pyUpsert props "x" (.int bb.x))
      "y" (.int bb.y)) "width" (.int bb.w)) "height" (.int bb.h)

/-- The property loop of `AdlTemplate.set`. -/
def adlSetGo : String → List (String × PropVal) → Except Err String
  | t, [] => .ok t
  | t, (k, v) :: rest =>
    match adlSetStep t k v with
    | .error e => .error e
    | .ok t' => adlSetGo t' rest

/-- Method `AdlTemplate.set` (lines 531-544). -/
def adlSet (t : String) (b : Option Bounds) (props : List (String × PropVal)) :
    Except Err String :=
  adlSetGo t (adlProps props b)

/-! ## BobTemplate

`search` is read-only: the element tree is embedded as a pure inductive
`XTree` (the `deepcopy(self.tree)` at the top of `search` has no
observable effect on a read).  `set` mutates element objects after a
`deepcopy`, so it is embedded against an explicit store: elements live at
`Nat` addresses in a `Heap`, `deepcopy` allocates fresh addresses at the
end, and text assignment updates one address. -/

/-- An XML element: tag, text content, ordered children. -/
inductive XTree where
  | node (tag : String) (text : String) (children : List XTree)
  deriving Repr

/-- Tag accessor. -/
def XTree.tag : XTree → String
  | .node tg _ _ => tg

/-- Text accessor. -/
def XTree.text : XTree → String
  | .node _ tx _ => tx

/-- Children accessor. -/
def XTree.children : XTree → List XTree
  | .node _ _ cs => cs

mutual
/-- The matches of `BobTemplate.search` (lines 602-606): for every
element whose tag is `name` and whose text equals the key, its parent, in
document order.  The root element itself has no parent and is never
listed (the theorems assume the root is not tagged `name`, as in any
`.bob` document, whose root is `display`). -/
def XTree.iterM (key : String) : XTree → List XTree
  | .node tg tx cs => iterMKids key (.node tg tx cs) cs
/-- The matches contributed by a child list: the parent once per
matching `name` child, interleaved with the children's own matches in
document order. -/
def iterMKids (key : String) (parent : XTree) : List XTree → List XTree
  | [] => []
  | c :: rest =>
    (if c.tag = "name" && c.text = key then [parent] else [])
      ++ c.iterM key ++ iterMKids key parent rest
end

/-- The widget-stripping loop of `BobTemplate.search` (lines 610-613)
with Python's remove-during-iteration semantics: removing the current
child shifts the list, so the element following a removed `widget` child
is skipped (and therefore kept even if it is itself a `widget`). -/
def stripIter : List XTree → List XTree
  | [] => []
  | c :: rest =>
    if c.tag = "widget" then
      match rest with
      | [] => []
      | d :: rest₂ => d :: stripIter rest₂
    else c :: stripIter rest

/-- Method `BobTemplate.search` (lines 589-615): exactly one matching element or
an assertion failure; a matched `display` element has its direct
`widget` children stripped so it represents an empty screen shell. -/
def bobSearch (t : XTree) (key : String) : Except Err XTree :=
  match t.iterM key with
  | [m] =>
    if m.tag = "display" then
      .ok (.node m.tag m.text (stripIter m.children))
    else .ok m
  | ms => .error (.assertionError
      ("Got " ++ toString ms.length ++ " matches for " ++ key))

/-- A mutable XML element: tag, text, and the addresses of its children
in the store. -/
structure XNode where
  tag : String
  text : String
  kids : List Nat
  deriving Repr, DecidableEq

/-- The store: address = list index; allocation appends. -/
abbrev Heap := List XNode

/-- Model of `deepcopy` over a list of subtree addresses, left to right: for each
address, first copy its children recursively, then append the copied
node; returns the extended heap and the fresh addresses.  `fuel` bounds
the recursion structurally (the number of nodes in the copied region is
always enough) so the definition is kernel-evaluable; Python's `deepcopy`
traverses the finite object graph, so a large enough fuel is exact. -/
def copyMany : Nat → Heap → List Nat → Option (Heap × List Nat)
  | 0, _, _ => none
  | _ + 1, h, [] => some (h, [])
  | f + 1, h, a :: rest =>
    match h[a]? with
    | none => none
    | some nd =>
      match copyMany f h nd.kids with
      | none => none
      | some (h₁, ks) =>
        match copyMany f (h₁ ++ [{ nd with kids := ks }]) rest with
        | none => none
        | some (h₂, rs) => some (h₂, h₁.length :: rs)

/-- Model of `deepcopy` of the subtree at address `a` (`copy.deepcopy(t)` at the
top of `BobTemplate.set`, line 575). -/
def copyNode (fuel : Nat) (h : Heap) (a : Nat) : Option (Heap × Nat) :=
  match copyMany fuel h [a] with
  | some (h', [a']) => some (h', a')
  | _ => none

/-- Assign the `text` of the element at address `a` (out-of-store
addresses are never produced by the code paths embedded here). -/
def setText (h : Heap) (a : Nat) (s : String) : Heap :=
  match h[a]? with
  | some nd => h.set a { nd with text := s }
  | none => h

/-- Lookup `t_copy.xpath(f"./{item}")[0]`: the first direct child with the given
tag, if any. -/
def firstChildWithTag (h : Heap) (a : Nat) (tg : String) : Option Nat :=
  match h[a]? with
  | none => none
  | some nd =>
    nd.kids.find? fun k =>
      match h[k]? with
      | some c => c.tag == tg
      | none => false

/-- Text of the element at an address (empty for a dangling address). -/
def textAt (h : Heap) (a : Nat) : String :=
  match h[a]? with
  | some nd => nd.text
  | none => ""

/-- The property loop of `BobTemplate.set` (lines 581-586): locate the
same-named child of the copied fragment and overwrite its text; a
missing child is a `ValueError` naming the fragment (via its `name`
child) and the missing property. -/
def bobSetProps : Heap → Nat → List (String × String) → Except Err Heap
  | h, _, [] => .ok h
  | h, root, (item, v) :: rest =>
    match firstChildWithTag h root item with
    | some c => bobSetProps (setText h c v) root rest
    | none =>
      .error (.valueError ("Failed to locate " ++ item ++ " in " ++
        (match firstChildWithTag h root "name" with
         | some n => textAt h n
         | none => "")))

/-- The property dict of `BobTemplate.set` after the bounds keys are
assigned (lines 576-580). -/
def bobProps (props : List (String × String)) (b : Option Bounds) :
    List (String × String) :=
  match b with
  | none => props
  | some bb =>
    pyUpsert (pyUpsert (pyUpsert (pyUpsert props "x" (toString bb.x))
      "y" (toString bb.y)) "width" (toString bb.w)) "height" (toString bb.h)

/-- Method `BobTemplate.set` (lines 561-587): `deepcopy` the fragment, then
overwrite bounds fields and named properties on the copy; the result is
the mutated heap and the address of the copy.  `none` only when the
copy's fuel is exhausted. -/
def bobSet (fuel : Nat) (h : Heap) (t : Nat) (b : Option Bounds)
    (props : List (String × String)) : Option (Except Err (Heap × Nat)) :=
  match copyNode fuel h t with
  | none => none
  | some (h₁, t') =>
    some ((bobSetProps h₁ t' (bobProps props b)).map fun h₂ => (h₂, t'))

/-! ## The format stage

The `format()` machinery of `utils.py` (lines 91-206): a factory class
produced by `from_template` holds a bound template fragment, a `sized`
callback and an attribute map, and its `format()` returns
`[template.set(t, sized(self.bounds), **properties)]`; a group factory
offsets each child's bounds in place by `padding = sized(self.bounds)`
and concatenates the children's formats, and a screen factory first
emits the screen fragment (set at `self.bounds` with the title
properties) and the `make_widgets` decorations.  The concrete bindings -
which fragment, `sized` and attribute map each factory class carries -
are created by the formatter classes outside these sources, so they are
parameters here (`FormatBindings`), and the catalog's `set` is the
`setF` field (instantiated with `edlSet`/`adlSet` for the text
catalogs).  The `BobTemplate`-only group-nesting branch (lines 180-199)
builds lxml container elements and is outside this model.  The in-place
child-bounds mutation is explicit: `formatW` applies the parent's
offset on visit and returns the mutated factory tree alongside the
emitted fragments. -/

/-- The template-bound data of the formatter's factory classes: the
catalog `set` operation, the screen fragment and title properties, one
fragment / `sized` / attribute map per leaf factory class, and the
optional `make_widgets` decoration callback. -/
structure FormatBindings (T : Type) where
  setF : T → Bounds → List (String × PropVal) → Except Err T
  screenFrag : T
  screenProps : String → List (String × PropVal)
  labelFrag : T
  labelSized : Bounds → Bounds
  labelProps : String → List (String × PropVal)
  pvwFrag : PVW → T
  pvwSized : PVW → Bounds → Bounds
  pvwProps : PVW → String → List (String × PropVal)
  actionFrag : T
  actionSized : Bounds → Bounds
  actionProps : String → String → String → List (String × PropVal)
  makeWidgets : Option (Bounds → String → List WidgetFactory)

mutual
/-- Format one factory after shifting its bounds by the parent's
padding (`c.bounds.x += padding.x; c.bounds.y += padding.y` followed by
`c.format()`, lines 176-178): a leaf emits one fragment, `set` at its
`sized` bounds with its attribute properties (lines 105-110); a group
emits its children, each offset by `padding = sized(self.bounds)`
(lines 149-206, text-template branch, where a group emits no fragment
of its own).  Returns the emitted fragments and the mutated factory. -/
def formatW {T : Type} (fb : FormatBindings T) (gsized : Bounds → Bounds)
    (dx dy : Int) : WidgetFactory → Except Err (List T × WidgetFactory)
  | .label b text =>
    let b' := { b with x := b.x + dx, y := b.y + dy }
    match fb.setF fb.labelFrag (fb.labelSized b') (fb.labelProps text) with
    | .error e => .error e
    | .ok t => .ok ([t], .label b' text)
  | .pvw k b pv =>
    let b' := { b with x := b.x + dx, y := b.y + dy }
    match fb.setF (fb.pvwFrag k) (fb.pvwSized k b') (fb.pvwProps k pv) with
    | .error e => .error e
    | .ok t => .ok ([t], .pvw k b' pv)
  | .action b lb pv v =>
    let b' := { b with x := b.x + dx, y := b.y + dy }
    match fb.setF fb.actionFrag (fb.actionSized b') (fb.actionProps lb pv v) with
    | .error e => .error e
    | .ok t => .ok ([t], .action b' lb pv v)
  | .group b title cs =>
    let b' := { b with x := b.x + dx, y := b.y + dy }
    let padding := gsized b'
    match formatKids fb gsized padding.x padding.y cs with
    | .error e => .error e
    | .ok (ts, cs') => .ok (ts, .group b' title cs')
/-- The child loop of a group's `format()`: offset and format each
child in order, concatenating the fragments. -/
def formatKids {T : Type} (fb : FormatBindings T) (gsized : Bounds → Bounds)
    (dx dy : Int) : List WidgetFactory → Except Err (List T × List WidgetFactory)
  | [] => .ok ([], [])
  | c :: rest =>
    match formatW fb gsized dx dy c with
    | .error e => .error e
    | .ok (ts, c') =>
      match formatKids fb gsized dx dy rest with
      | .error e => .error e
      | .ok (ts₂, rest') => .ok (ts ++ ts₂, c' :: rest')
end

/-- Format of the top-level screen factory (`search == SCREEN`, lines
152-178): the screen fragment `set` at `self.bounds` with the title
properties, then the `make_widgets` decorations (formatted in place,
no offset), then the children offset by `padding = sized(self.bounds)`.
`Screen.screen` always yields a group factory; the leaf arm is for
totality only. -/
def formatScreen {T : Type} (fb : FormatBindings T)
    (gsized ssized : Bounds → Bounds) :
    WidgetFactory → Except Err (List T × WidgetFactory)
  | .group b title cs =>
    let padding := ssized b
    match fb.setF fb.screenFrag b (fb.screenProps title) with
    | .error e => .error e
    | .ok t0 =>
      match (match fb.makeWidgets with
             | none => (.ok ([], []) : Except Err (List T × List WidgetFactory))
             | some mk => formatKids fb gsized 0 0 (mk b title)) with
      | .error e => .error e
      | .ok (deco, _) =>
        match formatKids fb gsized padding.x padding.y cs with
        | .error e => .error e
        | .ok (ts, cs') => .ok (t0 :: (deco ++ ts), .group b title cs')
  | w => formatW fb gsized 0 0 w

/-- The full per-file pipeline: lay the components out with
`Screen.screen` (from the instance registry `reg`), then format the
resulting factory tree against the template bindings, yielding the
ordered fragments handed to the writer.  The `sized` callbacks are the
ones bound into `group_cls`/`screen_cls` (`cfg.groupSized`,
`cfg.screenSized`), as in the source where layout and format share the
factory classes. -/
def pipelineRun {T : Type} (fb : FormatBindings T) (cfg : ScreenCfg) (fuel : Nat)
    (reg : Registry) (components : List Component) (title : String) :
    Except Err (List T) :=
  match Screen.screen cfg fuel reg components title with
  | .error e => .error e
  | .ok sf =>
    match formatScreen fb cfg.groupSized cfg.screenSized sf with
    | .error e => .error e
    | .ok (ts, _) => .ok ts

mutual
/-- Whether a component tree contains no `SignalRef` anywhere: only
back-references read the instance registry, so a ref-free tree's layout
is independent of it. -/
def Component.refFree : Component → Bool
  | .signalRef _ => false
  | .group _ _ cs => refFreeList cs
  | _ => true
/-- Ref-freedom of a component list. -/
def refFreeList : List Component → Bool
  | [] => true
  | c :: rest => c.refFree && refFreeList rest
end

/-! ## Shared concrete instances for witnesses -/

/-- A small concrete layout configuration used by witness instantiations. -/
def cfgDemo : ScreenCfg :=
  { layout :=
      { spacing := 5, title_height := 25, max_height := 100
        group_label_height := 20, label_width := 30, widget_width := 50
        widget_height := 20 }
    pfx := "P:" }

/-- A concrete `FormatBindings String` over the Edl text catalog used by
witness instantiations: each fragment is a small template with one
`x`/`y`/`w`/`h` line plus one line per bound attribute, `set` is
`EdlTemplate.set`, the `sized` callbacks are the identity and there are
no `make_widgets` decorations. -/
def fbW : FormatBindings String :=
  { setF := fun t b ps => edlSet t (some b) ps
    screenFrag := "x 0\ny 0\nw 0\nh 0\ntitle a"
    screenProps := fun ttl => [("title", .str ttl)]
    labelFrag := "x 0\ny 0\nw 0\nh 0\ntext a"
    labelSized := fun b => b
    labelProps := fun t => [("text", .str t)]
    pvwFrag := fun _ => "x 0\ny 0\nw 0\nh 0\npv a"
    pvwSized := fun _ b => b
    pvwProps := fun _ pv => [("pv", .str pv)]
    actionFrag := "x 0\ny 0\nw 0\nh 0\nlabel a\npv a\nvalue a"
    actionSized := fun b => b
    actionProps := fun lb pv v =>
      [("label", .str lb), ("pv", .str pv), ("value", .str v)]
    makeWidgets := none }

/-- A small back-reference-free component tree: a leaf write signal
followed by a labelled-grid group with one read signal. -/
def compsW8 : List Component :=
  [Component.signalW "motor" "X" (some .checkBox),
   Component.group "grp" (.grid true) [Component.signalR "pos" "Y" (some .led)]]

/-- A registry left over from a previous `Screen.screen` call on the same
instance, standing in for a stale (non-fresh) `Screen`. -/
def regStaleW : Registry :=
  [("old", Component.signalX "old" "P" "Go" "1")]

/-- Truncation toward zero agrees with Euclidean division on nonnegative
numerators. -/
theorem tdiv2_eq_ediv (d : Int) (h : 0 ≤ d) : Int.tdiv d 2 = d / 2 := by
  rcases d with n | n
  · rfl
  · exact absurd h (Int.negSucc_not_nonneg n).mp

/-- C9: `Bounds.square` yields a square of side `min w h`, lying inside
the original bounds, centred up to the rounding of the integer halving
(each right/bottom margin equals the left/top one or exceeds it by one). -/
theorem C9_square_spec (b : Bounds) :
    b.square.w = min b.w b.h ∧ b.square.h = min b.w b.h ∧
    b.x ≤ b.square.x ∧ b.square.x + b.square.w ≤ b.x + b.w ∧
    b.y ≤ b.square.y ∧ b.square.y + b.square.h ≤ b.y + b.h ∧
    (b.square.x - b.x ≤ (b.x + b.w) - (b.square.x + b.square.w) ∧
      (b.x + b.w) - (b.square.x + b.square.w) ≤ (b.square.x - b.x) + 1) ∧
    (b.square.y - b.y ≤ (b.y + b.h) - (b.square.y + b.square.h) ∧
      (b.y + b.h) - (b.square.y + b.square.h) ≤ (b.square.y - b.y) + 1) := by
  have hw : 0 ≤ b.w - min b.w b.h := by omega
  have hh : 0 ≤ b.h - min b.w b.h := by omega
  simp only [Bounds.square, tdiv2_eq_ediv _ hw, tdiv2_eq_ediv _ hh, true_and]
  omega

/-- C10: `pv_widget` mutates the caller-supplied `Bounds` object: for
`TextRead`/`TextWrite` the object's height is multiplied by the widget's
line count in place (the factory stores that same object, and the caller
observes the multiplied height afterwards); for every other widget kind
the object is left unchanged. -/
theorem C10_pv_widget_mutation (w : PVW) (bounds : Bounds) (pv pfx : String) :
    (∀ n, w = .textRead n →
      (pv_widget w bounds pv pfx).2 = { bounds with h := bounds.h * n }) ∧
    (∀ n, w = .textWrite n →
      (pv_widget w bounds pv pfx).2 = { bounds with h := bounds.h * n }) ∧
    ((∀ n, w ≠ .textRead n) → (∀ n, w ≠ .textWrite n) →
      (pv_widget w bounds pv pfx).2 = bounds) ∧
    (pv_widget w bounds pv pfx).1 = .pvw w (pv_widget w bounds pv pfx).2 (pfx ++ pv) := by
  cases w <;> simp [pv_widget]

/-- Witness for C10 at concrete inputs: a three-line `TextRead` widget
triples the caller's height; an `LED` leaves it unchanged. -/
theorem C10_pv_widget_mutation_witness :
    (pv_widget (.textRead 3) ⟨1, 2, 30, 20⟩ "PV" "P:").2 = ⟨1, 2, 30, 60⟩ ∧
    (pv_widget .led ⟨1, 2, 30, 20⟩ "PV" "P:").2 = ⟨1, 2, 30, 20⟩ := by
  constructor
  · exact (C10_pv_widget_mutation (.textRead 3) ⟨1, 2, 30, 20⟩ "PV" "P:").1 3 rfl
  · exact (C10_pv_widget_mutation .led ⟨1, 2, 30, 20⟩ "PV" "P:").2.2.1
      (by intro n h; cases h) (by intro n h; cases h)

/-- The factory returned by `pv_widget` carries the (possibly
height-multiplied) bounds object, whose `x`, `y`, `w` are those of the
argument. -/
theorem pv_widget_fields (w : PVW) (b : Bounds) (pv pfx : String) :
    (pv_widget w b pv pfx).1 = .pvw w (pv_widget w b pv pfx).2 (pfx ++ pv) ∧
    (pv_widget w b pv pfx).2.x = b.x ∧ (pv_widget w b pv pfx).2.y = b.y ∧
    (pv_widget w b pv pfx).2.w = b.w := by
  cases w <;> simp [pv_widget]

/-- C3: a `SignalRW` with a write widget, a distinct read widget and a
read PV yields, after the label slice, exactly two side-by-side PV
widgets: the write widget on a left half of width
`int((post_label_w - spacing)/2)` and the read widget on the right half
starting `spacing` further, preceded by one label factory occupying the
`label_width` slice - three factories in total. -/
theorem C3_rw_split (cfg : ScreenCfg) (fuel : Nat) (reg : Registry)
    (nm pv rpv : String) (w rw : PVW) (b : Bounds) (gwi : Int)
    (h1 : cfg.layout.label_width + cfg.layout.spacing < b.w)
    (h2 : Int.tdiv (b.w - cfg.layout.label_width - cfg.layout.spacing
            - cfg.layout.spacing) 2 + cfg.layout.spacing
          < b.w - cfg.layout.label_width - cfg.layout.spacing) :
    ∃ bw br : Bounds,
      Screen.component cfg fuel reg
          (.signalRW nm pv (some w) (some rpv) (some rw)) b gwi true
        = .ok ([.label (indent_widget ⟨b.x, b.y, cfg.layout.label_width, b.h⟩ gwi) nm,
                .pvw w bw (cfg.pfx ++ pv), .pvw rw br (cfg.pfx ++ rpv)],
               pyUpsert reg nm (.signalRW nm pv (some w) (some rpv) (some rw))) ∧
      bw.x = b.x + cfg.layout.label_width + cfg.layout.spacing + gwi ∧
      bw.y = b.y ∧
      bw.w = Int.tdiv (b.w - cfg.layout.label_width - cfg.layout.spacing
               - cfg.layout.spacing) 2 ∧
      br.x = bw.x + bw.w + cfg.layout.spacing ∧
      br.y = b.y ∧
      br.w = b.w - cfg.layout.label_width - cfg.layout.spacing - bw.w
               - cfg.layout.spacing := by
  have e1 : b.split cfg.layout.label_width cfg.layout.spacing
      = .ok (⟨b.x, b.y, cfg.layout.label_width, b.h⟩,
             ⟨b.x + cfg.layout.label_width + cfg.layout.spacing, b.y,
              b.w - cfg.layout.label_width - cfg.layout.spacing, b.h⟩) := by
    simp [Bounds.split, h1]
  have e2 : (Bounds.mk (b.x + cfg.layout.label_width + cfg.layout.spacing) b.y
        (b.w - cfg.layout.label_width - cfg.layout.spacing) b.h).split
        (Int.tdiv (b.w - cfg.layout.label_width - cfg.layout.spacing
          - cfg.layout.spacing) 2) cfg.layout.spacing
      = .ok (⟨b.x + cfg.layout.label_width + cfg.layout.spacing, b.y,
              Int.tdiv (b.w - cfg.layout.label_width - cfg.layout.spacing
                - cfg.layout.spacing) 2, b.h⟩,
             ⟨b.x + cfg.layout.label_width + cfg.layout.spacing
                + Int.tdiv (b.w - cfg.layout.label_width - cfg.layout.spacing
                    - cfg.layout.spacing) 2 + cfg.layout.spacing, b.y,
              b.w - cfg.layout.label_width - cfg.layout.spacing
                - Int.tdiv (b.w - cfg.layout.label_width - cfg.layout.spacing
                    - cfg.layout.spacing) 2 - cfg.layout.spacing, b.h⟩) := by
    simp [Bounds.split, h2]
  refine ⟨(pv_widget w (indent_widget ⟨b.x + cfg.layout.label_width
      + cfg.layout.spacing, b.y,
      Int.tdiv (b.w - cfg.layout.label_width - cfg.layout.spacing
        - cfg.layout.spacing) 2, b.h⟩ gwi) pv cfg.pfx).2,
    (pv_widget rw (indent_widget ⟨b.x + cfg.layout.label_width + cfg.layout.spacing
        + Int.tdiv (b.w - cfg.layout.label_width - cfg.layout.spacing
            - cfg.layout.spacing) 2 + cfg.layout.spacing, b.y,
        b.w - cfg.layout.label_width - cfg.layout.spacing
          - Int.tdiv (b.w - cfg.layout.label_width - cfg.layout.spacing
              - cfg.layout.spacing) 2 - cfg.layout.spacing, b.h⟩ gwi) rpv cfg.pfx).2,
    ?_, ?_, ?_, ?_, ?_, ?_, ?_⟩
  · simp only [Screen.component, Component.isRef, Component.get_label,
      Component.cname, if_true, e1, e2]
    rw [(pv_widget_fields w _ pv cfg.pfx).1, (pv_widget_fields rw _ rpv cfg.pfx).1]
    simp
  · rw [(pv_widget_fields w _ pv cfg.pfx).2.1]; simp [indent_widget]
  · rw [(pv_widget_fields w _ pv cfg.pfx).2.2.1]; simp [indent_widget]
  · rw [(pv_widget_fields w _ pv cfg.pfx).2.2.2]; simp [indent_widget]
  · rw [(pv_widget_fields rw _ rpv cfg.pfx).2.1,
      (pv_widget_fields w _ pv cfg.pfx).2.1,
      (pv_widget_fields w _ pv cfg.pfx).2.2.2]
    simp [indent_widget]; ring
  · rw [(pv_widget_fields rw _ rpv cfg.pfx).2.2.1]; simp [indent_widget]
  · rw [(pv_widget_fields rw _ rpv cfg.pfx).2.2.2,
      (pv_widget_fields w _ pv cfg.pfx).2.2.2]
    simp [indent_widget]

/-- Witness for C3 at concrete inputs (`cfgDemo`, bounds `90 x 20`):
exactly three factories - label at the 30-wide left slice, write widget
on the 25-wide left half at `x = 35`, read widget on the right half at
`x = 65`. -/
theorem C3_rw_split_witness :
    ∃ bw br : Bounds,
      Screen.component cfgDemo 2 []
          (.signalRW "rw" "PV" (some (.textWrite 1)) (some "PV_RBV")
            (some (.textRead 1)))
          ⟨0, 0, 90, 20⟩ 0 true
        = .ok ([.label ⟨0, 0, 30, 20⟩ "rw", .pvw (.textWrite 1) bw "P:PV",
                .pvw (.textRead 1) br "P:PV_RBV"],
               [("rw", .signalRW "rw" "PV" (some (.textWrite 1)) (some "PV_RBV")
                  (some (.textRead 1)))]) ∧
      bw.x = 35 ∧ bw.y = 0 ∧ bw.w = 25 ∧ br.x = 65 ∧ br.y = 0 ∧ br.w = 25 := by
  obtain ⟨bw, br, h, hx, hy, hw2, hrx, hry, hrw⟩ :=
    C3_rw_split cfgDemo 2 [] "rw" "PV" "PV_RBV" (.textWrite 1) (.textRead 1)
      ⟨0, 0, 90, 20⟩ 0 (by decide) (by decide)
  refine ⟨bw, br, ?_, ?_, ?_, ?_, ?_, ?_, ?_⟩
  · simpa [cfgDemo, indent_widget, pyUpsert] using h
  · rw [hx]; decide
  · exact hy
  · rw [hw2]; decide
  · rw [hrx, hx, hw2]; decide
  · exact hry
  · rw [hrw, hw2]; decide

/-- C4 counterexample: a `SignalRef` to a never-registered name makes
`Screen.component` fail with the **raw dictionary lookup failure**
(`KeyError` from `self.components[c.name]`, line 415) - there is no
dedicated unresolved-reference error in the code. -/
theorem C4_ref_counterexample :
    Screen.component cfgDemo 2 [] (.signalRef "missing") ⟨0, 0, 90, 20⟩ 0 true
      = .error (.keyError "missing") := by rfl

/-- C4 (amended): an unregistered `SignalRef` aborts layout with the
uncaught `KeyError` of the raw registry lookup (fatal, but not a
dedicated diagnostic error); a previously registered name resolves to
the stored component and recurses on it (the source passes `add_label`
in the positional `group_widget_indent` slot of the recursive call, so
the resolved component is laid out with indentation `pyBoolInt add_label`
and a fresh label). -/
theorem C4_ref_resolution (cfg : ScreenCfg) (fuel : Nat) (reg : Registry)
    (nm : String) (b : Bounds) (gwi : Int)
    (hsplit : cfg.layout.label_width + cfg.layout.spacing < b.w) :
    (lookupA reg nm = none →
      Screen.component cfg fuel reg (.signalRef nm) b gwi true
        = .error (.keyError nm)) ∧
    (∀ c', lookupA reg nm = some c' →
      Screen.component cfg (fuel + 1) reg (.signalRef nm) b gwi true
        = (match Screen.component cfg fuel reg c'
              (indent_widget ⟨b.x + cfg.layout.label_width + cfg.layout.spacing,
                b.y, b.w - cfg.layout.label_width - cfg.layout.spacing, b.h⟩ gwi)
              (pyBoolInt true) true with
           | .error e => .error e
           | .ok (ws, reg') =>
             .ok (.label (indent_widget ⟨b.x, b.y, cfg.layout.label_width, b.h⟩ gwi)
                    nm :: ws, reg'))) := by
  have e1 : b.split cfg.layout.label_width cfg.layout.spacing
      = .ok (⟨b.x, b.y, cfg.layout.label_width, b.h⟩,
             ⟨b.x + cfg.layout.label_width + cfg.layout.spacing, b.y,
              b.w - cfg.layout.label_width - cfg.layout.spacing, b.h⟩) := by
    simp [Bounds.split, hsplit]
  constructor
  · intro hnone
    rw [Screen.component.eq_def]
    simp only [Component.isRef, Component.get_label,
      Component.cname, if_true, e1, hnone]
  · intro c' hsome
    rw [Screen.component.eq_def]
    simp only [Component.isRef, Component.get_label,
      Component.cname, if_true, e1, hsome]
    rcases hrec : Screen.component cfg fuel reg c'
        (indent_widget ⟨b.x + cfg.layout.label_width + cfg.layout.spacing,
          b.y, b.w - cfg.layout.label_width - cfg.layout.spacing, b.h⟩ gwi)
        (pyBoolInt true) true with e | p
    · simp
    · rcases p with ⟨ws, reg'⟩; simp

/-- Witness for C4 (amended) at concrete inputs: the empty registry
yields the `KeyError`; a registry holding `a` resolves the reference and
recurses (reproducing the source's double label and the one-pixel
`add_label`-as-indent shift). -/
theorem C4_ref_resolution_witness :
    (lookupA ([] : Registry) "missing" = none ∧
      Screen.component cfgDemo 2 [] (.signalRef "missing") ⟨0, 0, 90, 20⟩ 0 true
        = .error (.keyError "missing")) ∧
    Screen.component cfgDemo 2 [("a", .signalR "a" "PVA" (some .led))]
        (.signalRef "a") ⟨0, 0, 90, 20⟩ 0 true
      = .ok ([.label ⟨0, 0, 30, 20⟩ "a", .label ⟨36, 0, 30, 20⟩ "a",
              .pvw .led ⟨71, 0, 20, 20⟩ "P:PVA"],
             [("a", .signalR "a" "PVA" (some .led))]) := by
  constructor
  · exact ⟨rfl,
      (C4_ref_resolution cfgDemo 2 [] "missing" ⟨0, 0, 90, 20⟩ 0 (by decide)).1 rfl⟩
  · have h := (C4_ref_resolution cfgDemo 1 [("a", .signalR "a" "PVA" (some .led))]
      "a" ⟨0, 0, 90, 20⟩ 0 (by decide)).2 (.signalR "a" "PVA" (some .led)) rfl
    rw [h]; rfl

/-- C2: `make_component_widgets` lays the component out once; if the
resulting `max_y` is within the parent's height the widgets are kept (no
retry) and only `bounds.y` advances; if it exceeds `parent_bounds.h` the
**same component** is laid out again starting a new column at
`x = max_x(first-attempt widgets, spacing)`, `y = 0`, with `bounds.y`
then set from the first retried widget. -/
theorem C2_row_wrap (cfg : ScreenCfg) (fuel : Nat) (reg reg₁ : Registry)
    (c : Component) (bounds parent_bounds : Bounds) (add_label : Bool) (gwi : Int)
    (ws₁ : List WidgetFactory)
    (hfirst : Screen.component cfg fuel reg c bounds gwi add_label = .ok (ws₁, reg₁)) :
    (max_y ws₁ ≤ parent_bounds.h →
      Screen.make_component_widgets cfg fuel reg c bounds parent_bounds add_label gwi
        = .ok (ws₁, { bounds with y := max_y ws₁ cfg.layout.spacing }, reg₁)) ∧
    (max_y ws₁ > parent_bounds.h →
      Screen.make_component_widgets cfg fuel reg c bounds parent_bounds add_label gwi
        = (match Screen.component cfg fuel reg₁ c
              { bounds with x := max_x ws₁ cfg.layout.spacing, y := 0 }
              gwi add_label with
           | .error e => .error e
           | .ok ([], _) => .error .indexError
           | .ok (wd :: ws, reg₂) =>
             .ok (wd :: ws,
                  { bounds with
                      x := max_x ws₁ cfg.layout.spacing
                      y := next_y_pos wd cfg.layout.spacing }, reg₂))) := by
  constructor
  · intro hfit
    simp only [Screen.make_component_widgets, hfirst]
    rw [if_neg (by omega)]
  · intro hover
    simp only [Screen.make_component_widgets, hfirst]
    rw [if_pos hover]
    rcases hrec : Screen.component cfg fuel reg₁ c
        { bounds with x := max_x ws₁ cfg.layout.spacing, y := 0 }
        gwi add_label with e | ⟨ws₂, reg₂⟩
    · simp
    · cases ws₂ <;> simp

/-- Witness for C2 at concrete inputs: with a parent of height 10 the
20-high first attempt (bottom 20 > 10) is retried at
`x = max_x + spacing = 95`, `y = 0`. -/
theorem C2_row_wrap_witness :
    Screen.make_component_widgets cfgDemo 2 [] (.signalR "a" "PVA" (some .led))
        ⟨0, 0, 90, 20⟩ ⟨0, 0, 0, 10⟩ true 0
      = .ok ([.label ⟨95, 0, 30, 20⟩ "a", .pvw .led ⟨130, 0, 55, 20⟩ "P:PVA"],
             ⟨95, 25, 90, 20⟩, [("a", .signalR "a" "PVA" (some .led))]) := by
  have h := (C2_row_wrap cfgDemo 2 [] [("a", .signalR "a" "PVA" (some .led))]
      (.signalR "a" "PVA" (some .led)) ⟨0, 0, 90, 20⟩ ⟨0, 0, 0, 10⟩ true 0
      [.label ⟨0, 0, 30, 20⟩ "a", .pvw .led ⟨35, 0, 55, 20⟩ "P:PVA"]
      (by rfl)).2 (by decide)
  rw [h]; rfl

/-- The `Screen.group` child loop over a concatenation: when the prefix
folds successfully, the loop continues from its resulting state. -/
theorem groupChildren_append (cfg : ScreenCfg) (fuel : Nat) (pb : Bounds)
    (lab : Bool) (pre rest : List Component)
    (st st' : Bounds × List WidgetFactory × Registry)
    (h : Screen.groupChildren cfg fuel pb lab st pre = .ok st') :
    Screen.groupChildren cfg fuel pb lab st (pre ++ rest)
      = Screen.groupChildren cfg fuel pb lab st' rest := by
  induction pre generalizing st with
  | nil =>
    simp only [Screen.groupChildren] at h
    cases h; simp
  | cons c cs ih =>
    obtain ⟨cb, ws, reg⟩ := st
    simp only [Screen.groupChildren, List.cons_append] at h ⊢
    split at h
    · exact absurd h (by simp)
    all_goals
      split at h
      · simp at h
      · exact ih _ h

/-- C7: every unsupported layout shape is rejected explicitly and
fatally: a non-grid group layout fails the grid assertion in
`Screen.group`; a `Group` nested inside a group raises
`NotImplementedError` when the child loop reaches it; and the
`EdlTemplate` / `AdlTemplate` constructors assert the absence of
grouped-widget syntax (`endGroup` / `children {`) in the template text. -/
theorem C7_unsupported_shapes :
    (∀ (cfg : ScreenCfg) (fuel : Nat) (reg : Registry) (nm kind : String)
       (ch : List Component) (b : Bounds),
      Screen.group cfg fuel reg nm (.other kind) ch b
        = .error (.assertionError "Can only do grid at the moment")) ∧
    (∀ (cfg : ScreenCfg) (fuel : Nat) (reg : Registry) (nm : String) (lab : Bool)
       (pre : List Component) (gn : String) (gl : GroupLayout)
       (gch rest : List Component) (b : Bounds)
       (st' : Bounds × List WidgetFactory × Registry),
      Screen.groupChildren cfg fuel b lab
          (Bounds.mk 0 0 (cfg.layout.label_width + cfg.layout.widget_width
             + 2 * cfg.layout.spacing) cfg.layout.widget_height, [], reg) pre
        = .ok st' →
      Screen.group cfg fuel reg nm (.grid lab) (pre ++ .group gn gl gch :: rest) b
        = .error .notImplementedError) ∧
    (∀ text : String, strContains text "endGroup" →
      edlInit text = .error (.assertionError "cannot do groups")) ∧
    (∀ text : String, strContains text ("children " ++ braceO.toString) →
      adlInit text = .error (.assertionError "cannot do groups")) := by
  refine ⟨?_, ?_, ?_, ?_⟩
  · intro cfg fuel reg nm kind ch b
    simp [Screen.group]
  · intro cfg fuel reg nm lab pre gn gl gch rest b st' h
    simp only [Screen.group]
    rw [groupChildren_append cfg fuel b lab pre (.group gn gl gch :: rest) _ st' h]
    obtain ⟨cb, ws, rg⟩ := st'
    simp [Screen.groupChildren]
  · intro text h
    simp [edlInit, h]
  · intro text h
    simp [adlInit, h]

/-- Witness for C7 at concrete inputs: a `flow`-layout group, a directly
nested group, and template documents containing the banned tokens are
each rejected with the dedicated error. -/
theorem C7_unsupported_shapes_witness :
    Screen.group cfgDemo 2 [] "g" (.other "flow") [] ⟨0, 0, 0, 100⟩
      = .error (.assertionError "Can only do grid at the moment") ∧
    Screen.group cfgDemo 2 [] "g" (.grid true)
        [.group "inner" (.grid true) []] ⟨0, 0, 0, 100⟩
      = .error .notImplementedError ∧
    edlInit "a\nendGroup\nb" = .error (.assertionError "cannot do groups") ∧
    adlInit ("x\nchildren " ++ braceO.toString ++ "\ny")
      = .error (.assertionError "cannot do groups") := by
  refine ⟨C7_unsupported_shapes.1 cfgDemo 2 [] "g" "flow" [] ⟨0, 0, 0, 100⟩, ?_, ?_, ?_⟩
  · exact C7_unsupported_shapes.2.1 cfgDemo 2 [] "g" true [] "inner" (.grid true)
      [] [] ⟨0, 0, 0, 100⟩ _ rfl
  · exact C7_unsupported_shapes.2.2.1 "a\nendGroup\nb" (by decide)
  · exact C7_unsupported_shapes.2.2.2 ("x\nchildren " ++ braceO.toString ++ "\ny")
      (by decide)

/-- A fragment matches a Bob search key when one of its direct children
is a `name` element with that text. -/
def XTree.selfMatches (key : String) (t : XTree) : Bool :=
  t.children.any fun c => c.tag = "name" && c.text = key

mutual
/-- The number of elements in the subtree (the element itself included)
having a `name` child with the given text - the fragment-level match
count of a Bob search. -/
def XTree.countMatching (key : String) : XTree → Nat
  | .node tg tx cs =>
    (if XTree.selfMatches key (.node tg tx cs) then 1 else 0)
      + countMatchingKids key cs
/-- Sum of the fragment-level match counts of a child list. -/
def countMatchingKids (key : String) : List XTree → Nat
  | [] => 0
  | c :: rest => c.countMatching key + countMatchingKids key rest
end

mutual
/-- Well-formedness of a `.bob` element tree: every element has at most
one `name` child (`name` is the unique ID of an element). -/
def XTree.uniNames : XTree → Bool
  | .node _ _ cs =>
    decide ((cs.filter fun c => c.tag = "name").length ≤ 1) && uniNamesKids cs
/-- Well-formedness of a child list. -/
def uniNamesKids : List XTree → Bool
  | [] => true
  | c :: rest => c.uniNames && uniNamesKids rest
end

/-- Filtering by a stronger predicate yields no more elements. -/
theorem length_filter_imp_le {α : Type} (p q : α → Bool)
    (himp : ∀ a, p a = true → q a = true) (l : List α) :
    (l.filter p).length ≤ (l.filter q).length := by
  induction l with
  | nil => simp
  | cons a t ih =>
    by_cases hp : p a = true
    · simp [List.filter, hp, himp a hp]; omega
    · simp only [List.filter, Bool.not_eq_true] at hp ⊢
      rw [hp]
      by_cases hq : q a = true
      · simp [hq]; omega
      · simp only [Bool.not_eq_true] at hq; rw [hq]; exact ih

/-- Predicate `any` holds exactly when the filtered list is nonempty. -/
theorem any_iff_filter_pos {α : Type} (p : α → Bool) (l : List α) :
    l.any p = true ↔ 0 < (l.filter p).length := by
  induction l with
  | nil => simp
  | cons a t ih =>
    by_cases hp : p a = true
    · simp [List.filter, hp]
    · simp only [Bool.not_eq_true] at hp
      simp [List.filter, hp, ih]

mutual
/-- The occurrence count of `iter("name")`-matches equals the
fragment-level match count, for a well-formed tree. -/
theorem iterM_len (key : String) : ∀ t : XTree, t.uniNames = true →
    (t.iterM key).length = t.countMatching key
  | .node tg tx cs, hu => by
    have h1 : decide ((cs.filter fun c => c.tag = "name").length ≤ 1) = true
        ∧ uniNamesKids cs = true := by
      simpa [XTree.uniNames, Bool.and_eq_true] using hu
    rw [XTree.iterM, XTree.countMatching,
      iterMKids_len key (.node tg tx cs) cs h1.2]
    have hle : ((cs.filter fun c => c.tag = "name" && c.text = key)).length
        ≤ ((cs.filter fun c => c.tag = "name")).length :=
      length_filter_imp_le _ _ (by intro a ha; simp at ha ⊢; simp [ha.1]) cs
    have hn : ((cs.filter fun c => c.tag = "name")).length ≤ 1 := by
      simpa using h1.1
    have hsm : XTree.selfMatches key (.node tg tx cs) = true ↔
        0 < ((cs.filter fun c => c.tag = "name" && c.text = key)).length := by
      simpa [XTree.selfMatches, XTree.children] using
        any_iff_filter_pos (fun c => c.tag = "name" && c.text = key) cs
    by_cases hs : XTree.selfMatches key (.node tg tx cs) = true
    · have := hsm.mp hs
      rw [if_pos hs]; omega
    · rw [if_neg hs]
      have : ¬ 0 < ((cs.filter fun c => c.tag = "name" && c.text = key)).length :=
        fun hpos => hs (hsm.mpr hpos)
      omega
/-- Match-list length over a child list: one parent entry per matching
`name` child plus the children's own counts. -/
theorem iterMKids_len (key : String) (parent : XTree) :
    ∀ cs : List XTree, uniNamesKids cs = true →
    (iterMKids key parent cs).length
      = ((cs.filter fun c => c.tag = "name" && c.text = key)).length
        + countMatchingKids key cs
  | [], _ => rfl
  | c :: rest, h => by
    have hc : c.uniNames = true ∧ uniNamesKids rest = true := by
      simpa [uniNamesKids, Bool.and_eq_true] using h
    rw [iterMKids, countMatchingKids, List.length_append, List.length_append,
      iterM_len key c hc.1, iterMKids_len key parent rest hc.2]
    by_cases hm : (c.tag = "name" && c.text = key) = true
    · simp [List.filter, hm]; omega
    · simp only [Bool.not_eq_true] at hm
      simp [List.filter, hm]; omega
end

/-- C5: for every template catalog, `search` returns a fragment exactly
when precisely one fragment matches the key, and otherwise fails with
the descriptive count-carrying assertion error, never a partial result.
For the text catalogs (`EdlTemplate`/`AdlTemplate` share the search
code) a fragment matches when `re.search` accepts it; for `BobTemplate`
a fragment matches when it has a `name` child with the key as text (the
tree is well-formed: at most one `name` child per element, root not
tagged `name`). -/
theorem C5_search_exactly_one :
    (∀ (rs : String → String → Bool) (ws : List String) (key : String),
      (∀ t, textSearch rs ws key = .ok t ↔ ws.filter (fun s => rs key s) = [t]) ∧
      ((ws.filter (fun s => rs key s)).length ≠ 1 →
        textSearch rs ws key
          = .error (.assertionError ("Got "
              ++ toString (ws.filter (fun s => rs key s)).length
              ++ " matches for " ++ key)))) ∧
    (∀ (t : XTree) (key : String), t.uniNames = true →
      ((∃ m, bobSearch t key = .ok m) ↔ t.countMatching key = 1) ∧
      (t.countMatching key ≠ 1 →
        bobSearch t key
          = .error (.assertionError ("Got " ++ toString (t.iterM key).length
              ++ " matches for " ++ key)))) := by
  constructor
  · intro rs ws key
    constructor
    · intro t
      rcases hf : ws.filter (fun s => rs key s) with _ | ⟨a, _ | ⟨b, rest⟩⟩ <;>
        simp [textSearch, hf]
    · intro hne
      rcases hf : ws.filter (fun s => rs key s) with _ | ⟨a, _ | ⟨b, rest⟩⟩ <;>
        rw [hf] at hne <;> simp [textSearch, hf] <;> simp at hne
  · intro t key hu
    have hlen := iterM_len key t hu
    constructor
    · constructor
      · rintro ⟨m, hm⟩
        rcases hit : t.iterM key with _ | ⟨a, _ | ⟨b, rest⟩⟩ <;>
          simp [bobSearch, hit] at hm <;> rw [← hlen, hit] <;> rfl
      · intro hc
        rw [← hlen] at hc
        rcases hit : t.iterM key with _ | ⟨a, _ | ⟨b, rest⟩⟩ <;>
          rw [hit] at hc <;> simp at hc
        by_cases hd : a.tag = "display" <;>
          simp [bobSearch, hit, hd]
    · intro hc
      rw [← hlen] at hc
      rcases hit : t.iterM key with _ | ⟨a, _ | ⟨b, rest⟩⟩ <;>
        rw [hit] at hc <;> simp [bobSearch, hit] <;> simp at hc

/-- Model of `re.search` for a metacharacter-free pattern: substring containment
of the pattern in the text. -/
def reSearchLit (pattern text : String) : Bool := strContains text pattern

/-- A concrete well-formed Bob tree for the C5 witness. -/
def bobDemoTree : XTree :=
  .node "display" "" [.node "name" "Display" [],
    .node "widget" "w1" [.node "name" "led" [], .node "x" "0" []],
    .node "widget" "w2" [.node "name" "combo" [], .node "x" "1" []]]

/-- Witness for C5 at concrete inputs: a unique text match is returned,
a zero-match text search errors with the count, the unique Bob fragment
`led` is found, and a missing Bob key errors. -/
theorem C5_search_exactly_one_witness :
    textSearch reSearchLit ["alpha a", "beta b"] "alpha" = .ok "alpha a" ∧
    textSearch reSearchLit ["alpha a", "beta b"] "gamma"
      = .error (.assertionError "Got 0 matches for gamma") ∧
    (∃ m, bobSearch bobDemoTree "led" = .ok m) ∧
    bobSearch bobDemoTree "nope"
      = .error (.assertionError "Got 0 matches for nope") := by
  refine ⟨?_, ?_, ?_, ?_⟩
  · exact ((C5_search_exactly_one.1 reSearchLit ["alpha a", "beta b"] "alpha").1
      "alpha a").mpr (by decide)
  · exact (C5_search_exactly_one.1 reSearchLit ["alpha a", "beta b"] "gamma").2
      (by decide)
  · exact ((C5_search_exactly_one.2 bobDemoTree "led" (by decide)).1).mpr (by decide)
  · exact (C5_search_exactly_one.2 bobDemoTree "nope" (by decide)).2 (by decide)

/-- The sequence of tentative layouts the column loop performs: one
`Screen.group` call per column at `(col_x, col_y)` with height
constrained to `max_height`, the registry threaded through the attempts
actually executed; a failing attempt ends the sequence with its error. -/
def attemptsFrom (cfg : ScreenCfg) (fuel : Nat) (gname : String)
    (glayout : GroupLayout) (children : List Component) :
    Registry → List (Int × Int) → List (Except Err (WidgetFactory × Registry))
  | _, [] => []
  | reg, (cx, cy) :: rest =>
    match Screen.group cfg fuel reg gname glayout children
        ⟨cx, cy, 0, cfg.layout.max_height⟩ with
    | .error e => [.error e]
    | .ok (gf, reg') =>
      .ok (gf, reg') :: attemptsFrom cfg fuel gname glayout children reg' rest

/-- A group factory is laid out at the position it was asked for:
`Screen.group` preserves the `x`/`y` of its bounds argument. -/
theorem group_xy (cfg : ScreenCfg) (fuel : Nat) (reg : Registry) (nm : String)
    (gl : GroupLayout) (ch : List Component) (b : Bounds) (gf : WidgetFactory)
    (reg' : Registry) (h : Screen.group cfg fuel reg nm gl ch b = .ok (gf, reg')) :
    gf.bounds.x = b.x ∧ gf.bounds.y = b.y := by
  simp only [Screen.group] at h
  split at h
  · split at h
    · simp at h
    · cases h
      simp [WidgetFactory.bounds, applySized]
  · simp at h

/-- Updating a factory's bounds updates exactly its `bounds` field. -/
theorem updBounds_bounds (f : WidgetFactory) (g : Bounds → Bounds) :
    (f.updBounds g).bounds = g f.bounds := by
  cases f <;> rfl

/-- The column loop is first-fit: under the hypothesis that every
attempt succeeds, `tryColumns` returns the attempt at the first column
whose group bottom fits within `max_height`, or the attempt at the last
column when none fits; the chosen group sits at the chosen column's
coordinates, and every earlier attempt overflowed. -/
theorem tryColumns_first_fit (cfg : ScreenCfg) (fuel : Nat) (gname : String)
    (glayout : GroupLayout) (children : List Component) :
    ∀ (cols : List (Int × Int)) (reg : Registry), cols ≠ [] →
    (∀ r ∈ attemptsFrom cfg fuel gname glayout children reg cols, ∃ p, r = .ok p) →
    ∃ (k : Nat) (gf : WidgetFactory) (reg' : Registry) (cx cy : Int),
      k < cols.length ∧
      cols[k]? = some (cx, cy) ∧
      (attemptsFrom cfg fuel gname glayout children reg cols)[k]?
        = some (.ok (gf, reg')) ∧
      gf.bounds.x = cx ∧ gf.bounds.y = cy ∧
      (∀ j p, j < k →
        (attemptsFrom cfg fuel gname glayout children reg cols)[j]? = some (.ok p) →
        ¬ (p.1.bounds.h + p.1.bounds.y ≤ cfg.layout.max_height)) ∧
      (gf.bounds.h + gf.bounds.y ≤ cfg.layout.max_height ∨ k = cols.length - 1) ∧
      Screen.tryColumns cfg fuel gname glayout children reg cols = .ok (gf, reg') := by
  intro cols
  induction cols with
  | nil => intro reg hne _; exact absurd rfl hne
  | cons col rest ih =>
    obtain ⟨cx, cy⟩ := col
    intro reg _ hok
    rcases hg : Screen.group cfg fuel reg gname glayout children
        ⟨cx, cy, 0, cfg.layout.max_height⟩ with e | ⟨gf, reg'⟩
    · exfalso
      have := hok (.error e) (by simp [attemptsFrom, hg])
      simp at this
    · have hxy := group_xy cfg fuel reg gname glayout children _ gf reg' hg
      have hatt : attemptsFrom cfg fuel gname glayout children reg ((cx, cy) :: rest)
          = .ok (gf, reg') :: attemptsFrom cfg fuel gname glayout children reg' rest := by
        simp [attemptsFrom, hg]
      by_cases hfit : gf.bounds.h + gf.bounds.y ≤ cfg.layout.max_height
      · refine ⟨0, gf, reg', cx, cy, by simp, by simp, by simp [hatt], hxy.1, hxy.2,
          fun j p hj _ => absurd hj (Nat.not_lt_zero j), Or.inl hfit, ?_⟩
        simp only [Screen.tryColumns, hg]
        rw [if_pos hfit]
      · cases rest with
        | nil =>
          refine ⟨0, gf, reg', cx, cy, by simp, by simp, by simp [hatt], hxy.1,
            hxy.2, fun j p hj _ => absurd hj (Nat.not_lt_zero j), Or.inr rfl, ?_⟩
          simp only [Screen.tryColumns, hg]
          rw [if_neg hfit]
        | cons r₂ rest₂ =>
          have hok' : ∀ r ∈ attemptsFrom cfg fuel gname glayout children reg'
              (r₂ :: rest₂), ∃ p, r = .ok p := by
            intro r hr
            exact hok r (by rw [hatt]; exact List.mem_cons_of_mem _ hr)
          obtain ⟨k', gf', reg'', cx', cy', hlen, hcols, hat, hx', hy', hearly,
            hfitor, htry⟩ := ih reg' (by simp) hok'
          refine ⟨k' + 1, gf', reg'', cx', cy', by simpa using hlen, by simpa using hcols,
            ?_, hx', hy', ?_, ?_, ?_⟩
          · rw [hatt]; simpa using hat
          · intro j p hj hp
            cases j with
            | zero =>
              rw [hatt] at hp
              simp at hp
              rw [← hp]
              simpa using hfit
            | succ j' =>
              rw [hatt] at hp
              simp at hp
              exact hearly j' p (by omega) hp
          · rcases hfitor with h | h
            · exact Or.inl h
            · right
              simp only [List.length_cons] at h ⊢
              omega
          · simp only [Screen.tryColumns, hg]
            rw [if_neg hfit]
            exact htry

/-- A list whose entries all pass `Except.isOk` consists of `ok` values. -/
theorem all_isOk_mem {ε α : Type} (l : List (Except ε α))
    (h : l.all Except.isOk = true) : ∀ r ∈ l, ∃ p, r = .ok p := by
  intro r hr
  have := List.all_eq_true.mp h r hr
  cases r with
  | ok p => exact ⟨p, rfl⟩
  | error e => simp [Except.isOk, Except.toBool] at this

/-- C1: processing a top-level `Group` tries the known columns in
insertion order, tentatively laying the group at `(col_x, col_bottom_y)`
with height constrained to `max_height`, and accepts the first column
where the group's bottom `bounds.y + bounds.h` is within `max_height`
(first-fit); when no column fits the group is still placed - at the last
column of the dict, the freshly registered empty one - rather than
raising.  After placing, the accepted column's bottom becomes the
group's bottom plus spacing and an empty column (bottom `0`) is
registered at `max_x` of all widgets placed so far plus spacing. -/
theorem C1_group_first_fit (cfg : ScreenCfg) (fuel : Nat) (gname : String)
    (glayout : GroupLayout) (children : List Component) (st : Screen.ScrState)
    (hne : st.cols ≠ [])
    (hok : ∀ r ∈ attemptsFrom cfg fuel gname glayout children st.reg st.cols,
      ∃ p, r = .ok p) :
    ∃ (k : Nat) (gf : WidgetFactory) (reg' : Registry) (cx cy : Int),
      k < st.cols.length ∧
      st.cols[k]? = some (cx, cy) ∧
      (attemptsFrom cfg fuel gname glayout children st.reg st.cols)[k]?
        = some (.ok (gf, reg')) ∧
      gf.bounds.x = cx ∧ gf.bounds.y = cy ∧
      (∀ j p, j < k →
        (attemptsFrom cfg fuel gname glayout children st.reg st.cols)[j]?
          = some (.ok p) →
        ¬ (p.1.bounds.h + p.1.bounds.y ≤ cfg.layout.max_height)) ∧
      (gf.bounds.h + gf.bounds.y ≤ cfg.layout.max_height ∨ k = st.cols.length - 1) ∧
      Screen.screenStep cfg fuel st (.group gname glayout children)
        = .ok { reg := reg'
                cols := pyUpsertI (pyUpsertI st.cols gf.bounds.x
                          (gf.bounds.y + gf.bounds.h + cfg.layout.spacing))
                        (max_x (st.widgets ++ [gf.updBounds fun b =>
                            { b with w := b.w + cfg.layout.group_width_offset }])
                          cfg.layout.spacing) 0
                widgets := st.widgets ++ [gf.updBounds fun b =>
                            { b with w := b.w + cfg.layout.group_width_offset }]
                wb := st.wb } := by
  obtain ⟨k, gf, reg', cx, cy, hk, hcols, hat, hx, hy, hearly, hfitor, htry⟩ :=
    tryColumns_first_fit cfg fuel gname glayout children st.cols st.reg hne hok
  refine ⟨k, gf, reg', cx, cy, hk, hcols, hat, hx, hy, hearly, hfitor, ?_⟩
  simp only [Screen.screenStep, htry, next_y_pos, updBounds_bounds]

/-- The group children used by the C1 witness. -/
def grpKidsW : List Component :=
  [.signalR "s" "PV" (some .led), .signalR "t" "PV2" (some .led)]

/-- The screen state used by the C1 witness: column `0` already filled
to bottom `90`, a fresh empty column at `x = 95`. -/
def stW : Screen.ScrState := ⟨[], [(0, 90), (95, 0)], [], ⟨0, 0, 90, 20⟩⟩

/-- Witness for C1 at concrete inputs: the 45-high group overflows the
first column (bottom `135 > 100`) and is accepted at the second, empty
column (`x = 95`), whose bottom is then recorded. -/
theorem C1_group_first_fit_witness :
    ∃ (k : Nat) (gf : WidgetFactory) (reg' : Registry) (cx cy : Int),
      k < stW.cols.length ∧
      stW.cols[k]? = some (cx, cy) ∧
      (attemptsFrom cfgDemo 2 "g" (.grid true) grpKidsW stW.reg stW.cols)[k]?
        = some (.ok (gf, reg')) ∧
      gf.bounds.x = cx ∧ gf.bounds.y = cy ∧
      (∀ j p, j < k →
        (attemptsFrom cfgDemo 2 "g" (.grid true) grpKidsW stW.reg stW.cols)[j]?
          = some (.ok p) →
        ¬ (p.1.bounds.h + p.1.bounds.y ≤ cfgDemo.layout.max_height)) ∧
      (gf.bounds.h + gf.bounds.y ≤ cfgDemo.layout.max_height
        ∨ k = stW.cols.length - 1) ∧
      Screen.screenStep cfgDemo 2 stW (.group "g" (.grid true) grpKidsW)
        = .ok { reg := reg'
                cols := pyUpsertI (pyUpsertI stW.cols gf.bounds.x
                          (gf.bounds.y + gf.bounds.h + cfgDemo.layout.spacing))
                        (max_x (stW.widgets ++ [gf.updBounds fun b =>
                            { b with w := b.w + cfgDemo.layout.group_width_offset }])
                          cfgDemo.layout.spacing) 0
                widgets := stW.widgets ++ [gf.updBounds fun b =>
                            { b with w := b.w + cfgDemo.layout.group_width_offset }]
                wb := stW.wb } :=
  C1_group_first_fit cfgDemo 2 "g" (.grid true) grpKidsW stW (by decide)
    (all_isOk_mem _ (by rfl))

/-- The deepcopy specification: the copy extends the heap at the end
(all pre-existing addresses keep their contents), the returned addresses
are fresh, and every node in the fresh region points only at fresh
addresses within the result. -/
theorem copyMany_spec : ∀ (f : Nat) (h : Heap) (as : List Nat) (h' : Heap)
    (as' : List Nat), copyMany f h as = some (h', as') →
    h.length ≤ h'.length ∧
    (∀ i, i < h.length → h'[i]? = h[i]?) ∧
    (∀ a' ∈ as', h.length ≤ a' ∧ a' < h'.length) ∧
    (∀ j nd, h.length ≤ j → h'[j]? = some nd →
      ∀ k ∈ nd.kids, h.length ≤ k ∧ k < h'.length) := by
  intro f
  induction f with
  | zero => intro h as h' as' hc; simp [copyMany] at hc
  | succ f ih =>
    intro h as h' as' hc
    cases as with
    | nil =>
      simp only [copyMany, Option.some.injEq, Prod.mk.injEq] at hc
      obtain ⟨rfl, rfl⟩ := hc
      refine ⟨le_rfl, fun i _ => rfl, by simp, ?_⟩
      intro j nd hj hnd
      rw [List.getElem?_eq_none hj] at hnd
      cases hnd
    | cons a rest =>
      simp only [copyMany] at hc
      split at hc
      · exact absurd hc (by simp)
      next nd ha =>
      split at hc
      · exact absurd hc (by simp)
      next h₁ ks hk =>
      split at hc
      · exact absurd hc (by simp)
      next h₃ rs hr =>
      simp only [Option.some.injEq, Prod.mk.injEq] at hc
      obtain ⟨rfl, rfl⟩ := hc
      obtain ⟨hlen1, hpres1, hmem1, hfresh1⟩ := ih h nd.kids h₁ ks hk
      obtain ⟨hlen2, hpres2, hmem2, hfresh2⟩ := ih _ rest h₃ rs hr
      have hlen12 : (h₁ ++ [{ nd with kids := ks }]).length = h₁.length + 1 := by
        simp
      refine ⟨by omega, ?_, ?_, ?_⟩
      · intro i hi
        rw [hpres2 i (by omega), List.getElem?_append_left (by omega), hpres1 i hi]
      · intro a' ha'
        rcases List.mem_cons.mp ha' with rfl | hmem
        · constructor
          · omega
          · omega
        · have := hmem2 a' hmem
          omega
      · intro j nd₀ hj hnd₀
        by_cases hj2 : j < (h₁ ++ [{ nd with kids := ks }]).length
        · rw [hpres2 j hj2] at hnd₀
          by_cases hj1 : j < h₁.length
          · rw [List.getElem?_append_left hj1] at hnd₀
            have := hfresh1 j nd₀ hj hnd₀
            intro k hk₀
            have := this k hk₀
            omega
          · have hje : j = h₁.length := by omega
            subst hje
            rw [List.getElem?_concat_length] at hnd₀
            cases hnd₀
            intro k hk₀
            have := hmem1 k hk₀
            omega
        · have := hfresh2 j nd₀ (by omega) hnd₀
          intro k hk₀
          have := this k hk₀
          omega

/-- Contents of the store after a text assignment: only the text of the
node at the assigned address changes. -/
theorem getElem?_setText (h : Heap) (c : Nat) (v : String) (i : Nat) :
    (setText h c v)[i]? = if i = c then (h[i]?).map (fun nd => { nd with text := v })
      else h[i]? := by
  unfold setText
  rcases hc : h[c]? with _ | nd
  · by_cases hic : i = c
    · subst hic; rw [if_pos rfl, hc]; rfl
    · rw [if_neg hic]
  · have hclt : c < h.length := by
      by_contra hge
      rw [List.getElem?_eq_none (by omega)] at hc
      cases hc
    by_cases hic : i = c
    · subst hic
      rw [if_pos rfl, hc, List.getElem?_set_eq_of_lt _ hclt]
      rfl
    · rw [if_neg hic, List.getElem?_set_ne (fun he => hic he.symm)]

/-- Assignment `setText` preserves the store size. -/
theorem setText_length (h : Heap) (c : Nat) (v : String) :
    (setText h c v).length = h.length := by
  unfold setText
  rcases h[c]? with _ | nd <;> simp

/-- Search `find?` only depends on the predicate's values on the list. -/
theorem find?_ext {α : Type} (p q : α → Bool) (l : List α)
    (h : ∀ x ∈ l, p x = q x) : l.find? p = l.find? q := by
  induction l with
  | nil => rfl
  | cons a t ih =>
    rw [List.find?_cons, List.find?_cons, h a (by simp)]
    by_cases hq : q a = true
    · rw [hq]
    · simp only [Bool.not_eq_true] at hq
      rw [hq]
      exact ih fun x hx => h x (by simp [hx])

/-- Text assignment does not move or retag any child: child lookup by
tag is unchanged. -/
theorem firstChild_setText (h : Heap) (c : Nat) (v : String) (a : Nat)
    (tg : String) :
    firstChildWithTag (setText h c v) a tg = firstChildWithTag h a tg := by
  unfold firstChildWithTag
  have hmain : ∀ k : Nat, (match (setText h c v)[k]? with
      | some (c' : XNode) => c'.tag == tg
      | none => false)
      = (match h[k]? with
        | some (c' : XNode) => c'.tag == tg
        | none => false) := by
    intro k
    rw [getElem?_setText]
    by_cases hkc : k = c
    · subst hkc
      rcases hk : h[k]? with _ | nd₁ <;> simp
    · rw [if_neg hkc]
  by_cases hac : a = c
  · subst hac
    rcases ha : h[a]? with _ | nd
    · rw [getElem?_setText, if_pos rfl, ha]
      rfl
    · rw [getElem?_setText, if_pos rfl, ha]
      exact find?_ext _ _ _ fun k _ => hmain k
  · rw [getElem?_setText, if_neg hac]
    rcases ha : h[a]? with _ | nd
    · rfl
    · exact find?_ext _ _ _ fun k _ => hmain k

/-- Reading back the text just assigned. -/
theorem textAt_setText_self (h : Heap) (c : Nat) (v : String) (nd : XNode)
    (hc : h[c]? = some nd) : textAt (setText h c v) c = v := by
  unfold textAt
  rw [getElem?_setText, if_pos rfl, hc]
  rfl

/-- The fresh region above `L` is closed: every node there points only
at addresses at or above `L`, inside the store. -/
def freshClosed (L : Nat) (h : Heap) : Prop :=
  ∀ j nd, L ≤ j → h[j]? = some nd → ∀ k ∈ nd.kids, L ≤ k ∧ k < h.length

/-- A located child of a fresh node is itself fresh and valid. -/
theorem firstChild_fresh (L : Nat) (h : Heap) (a : Nat) (tg : String) (c : Nat)
    (hg : freshClosed L h) (ha : L ≤ a)
    (hc : firstChildWithTag h a tg = some c) : L ≤ c ∧ c < h.length := by
  unfold firstChildWithTag at hc
  rcases hnd : h[a]? with _ | nd <;> rw [hnd] at hc
  · cases hc
  · exact hg a nd ha hnd c (List.mem_of_find?_eq_some hc)

/-- A located child address holds a node. -/
theorem firstChild_node (h : Heap) (a : Nat) (tg : String) (c : Nat)
    (hc : firstChildWithTag h a tg = some c) : ∃ nd, h[c]? = some nd := by
  unfold firstChildWithTag at hc
  rcases hnd : h[a]? with _ | nd <;> rw [hnd] at hc
  · cases hc
  · have := List.find?_some hc
    rcases hnd₂ : h[c]? with _ | nd₂ <;> rw [hnd₂] at this
    · cases this
    · exact ⟨nd₂, rfl⟩

/-- Text assignment preserves the closure of the fresh region. -/
theorem freshClosed_setText (L : Nat) (h : Heap) (c : Nat) (v : String)
    (hg : freshClosed L h) : freshClosed L (setText h c v) := by
  intro j nd hj hnd
  rw [getElem?_setText] at hnd
  rw [setText_length]
  by_cases hjc : j = c
  · subst hjc
    rw [if_pos rfl] at hnd
    rcases hj₀ : h[j]? with _ | nd₀ <;> rw [hj₀] at hnd
    · cases hnd
    · rw [show Option.map (fun nd => XNode.mk nd.tag v nd.kids) (some nd₀)
          = some (XNode.mk nd₀.tag v nd₀.kids) from rfl] at hnd
      cases hnd
      exact hg j nd₀ hj hj₀
  · rw [if_neg hjc] at hnd
    exact hg j nd hj hnd

/-- The property loop of `BobTemplate.set` only writes inside the fresh
region: the store size is unchanged, everything below `L` is untouched,
and the fresh region stays closed. -/
theorem bobSetProps_spec (L : Nat) : ∀ (props : List (String × String)) (h : Heap)
    (root : Nat) (h₂ : Heap), freshClosed L h → L ≤ root →
    bobSetProps h root props = .ok h₂ →
    h₂.length = h.length ∧ (∀ i, i < L → h₂[i]? = h[i]?) ∧ freshClosed L h₂ := by
  intro props
  induction props with
  | nil =>
    intro h root h₂ hg _ hp
    simp only [bobSetProps, Except.ok.injEq] at hp
    subst hp
    exact ⟨rfl, fun i _ => rfl, hg⟩
  | cons pr rest ih =>
    obtain ⟨item, v⟩ := pr
    intro h root h₂ hg hr hp
    simp only [bobSetProps] at hp
    rcases hfc : firstChildWithTag h root item with _ | c <;> rw [hfc] at hp
    · cases hp
    · have hcf := firstChild_fresh L h root item c hg hr hfc
      obtain ⟨hlen', hpres', hg'⟩ :=
        ih (setText h c v) root h₂ (freshClosed_setText L h c v hg) hr hp
      refine ⟨by rw [hlen', setText_length], ?_, hg'⟩
      intro i hi
      rw [hpres' i hi, getElem?_setText, if_neg (by omega)]

/-- The deepcopy of one fragment: pre-existing addresses unchanged, the
returned address fresh and valid, the fresh region closed. -/
theorem copyNode_spec (fuel : Nat) (h : Heap) (a : Nat) (h' : Heap) (a' : Nat)
    (hc : copyNode fuel h a = some (h', a')) :
    (∀ i, i < h.length → h'[i]? = h[i]?) ∧ h.length ≤ a' ∧ a' < h'.length ∧
    freshClosed h.length h' := by
  unfold copyNode at hc
  rcases hcm : copyMany fuel h [a] with _ | ⟨h₁, as₁⟩ <;> rw [hcm] at hc
  · cases hc
  rcases as₁ with _ | ⟨a₁, _ | _⟩ <;> simp only at hc
  · cases hc
  · simp only [Option.some.injEq, Prod.mk.injEq] at hc
    obtain ⟨rfl, rfl⟩ := hc
    obtain ⟨hlen, hpres, hmem, hfresh⟩ := copyMany_spec fuel h [a] h₁ [a₁] hcm
    have := hmem a₁ (by simp)
    exact ⟨hpres, this.1, this.2, hfresh⟩
  · cases hc

/-- C6: template `set` is copy-on-write.  For `BobTemplate` (the
mutating, tree-structured catalog) a successful `set` leaves every
pre-existing store address - in particular the whole original fragment -
byte-for-byte unchanged, and returns a freshly allocated fragment; a
single named property lands as the text of the copy's same-named child.
For the text catalogs the fragments are immutable strings and `set`
builds a new string: with a unique single-line match, the result is the
input's line list with exactly the matching line overwritten
(`EdlTemplate` quotes string values; `AdlTemplate` keeps the matched
leading whitespace). -/
theorem C6_set_copy_on_write :
    (∀ (fuel : Nat) (h : Heap) (t : Nat) (b : Option Bounds)
       (props : List (String × String)) (h₂ : Heap) (t' : Nat),
      bobSet fuel h t b props = some (.ok (h₂, t')) →
      (∀ i, i < h.length → h₂[i]? = h[i]?) ∧ h.length ≤ t') ∧
    (∀ (fuel : Nat) (h : Heap) (t : Nat) (item v : String) (h₂ : Heap) (t' : Nat),
      bobSet fuel h t none [(item, v)] = some (.ok (h₂, t')) →
      ∃ c, firstChildWithTag h₂ t' item = some c ∧ textAt h₂ c = v) ∧
    (∀ (t : String) (item : String) (v : PropVal),
      mlHas item (pyLines t) = false →
      ((pyLines t).filter (slMatches item)).length = 1 →
      edlSet t none [(item, v)]
        = .ok (unLines ((pyLines t).map fun l =>
            if slMatches item l then item ++ " " ++ renderQ v else l))) ∧
    (∀ (t : String) (item : String) (v : PropVal),
      ((pyLines t).filter (adlMatches item)).length = 1 →
      adlSet t none [(item, v)]
        = .ok (unLines ((pyLines t).map fun l =>
            if adlMatches item l then
              String.mk (l.data.takeWhile Char.isWhitespace) ++ item ++ "=" ++ renderQ v
            else l))) := by
  refine ⟨?_, ?_, ?_, ?_⟩
  · intro fuel h t b props h₂ t' hset
    simp only [bobSet] at hset
    rcases hcn : copyNode fuel h t with _ | ⟨h₁, t₁⟩ <;> rw [hcn] at hset
    · cases hset
    simp only [Option.some.injEq] at hset
    rcases hbp : bobSetProps h₁ t₁ (bobProps props b) with e | h₂' <;>
      rw [hbp] at hset
    · cases hset
    simp only [Except.map, Except.ok.injEq, Prod.mk.injEq] at hset
    obtain ⟨rfl, rfl⟩ := hset
    obtain ⟨hpres1, hfr, hlt, hclosed⟩ := copyNode_spec fuel h t h₁ t₁ hcn
    obtain ⟨hlen2, hpres2, _⟩ :=
      bobSetProps_spec h.length (bobProps props b) h₁ t₁ h₂' hclosed hfr hbp
    exact ⟨fun i hi => by rw [hpres2 i hi, hpres1 i hi], hfr⟩
  · intro fuel h t item v h₂ t' hset
    simp only [bobSet] at hset
    rcases hcn : copyNode fuel h t with _ | ⟨h₁, t₁⟩ <;> rw [hcn] at hset
    · cases hset
    simp only [Option.some.injEq] at hset
    have hbp0 : bobProps [(item, v)] (none : Option Bounds) = [(item, v)] := rfl
    rw [hbp0] at hset
    simp only [bobSetProps] at hset
    rcases hfc : firstChildWithTag h₁ t₁ item with _ | c <;> rw [hfc] at hset
    · simp only [Except.map] at hset; cases hset
    simp only [bobSetProps, Except.map, Except.ok.injEq, Prod.mk.injEq] at hset
    obtain ⟨rfl, rfl⟩ := hset
    obtain ⟨nd, hnd⟩ := firstChild_node h₁ t₁ item c hfc
    exact ⟨c, by rw [firstChild_setText]; exact hfc,
      textAt_setText_self h₁ c v nd hnd⟩
  · intro t item v hml hcount
    simp only [edlSet, edlProps, edlSetGo, edlSetStep, slSubn, hml, hcount]
    simp
  · intro t item v hcount
    simp only [adlSet, adlProps, adlSetGo, adlSetStep, adlSubn, hcount]
    simp

/-- The store used by the C6 witness: one widget element (address 2)
with a `name` child and an `x` child. -/
def hBobW : Heap := [⟨"name", "led", []⟩, ⟨"x", "0", []⟩, ⟨"widget", "", [0, 1]⟩]

/-- The store after the C6 witness `set` call: the three original nodes
untouched, a fresh copy appended with `x` overwritten to `42`. -/
def hBobW2 : Heap :=
  [⟨"name", "led", []⟩, ⟨"x", "0", []⟩, ⟨"widget", "", [0, 1]⟩,
   ⟨"name", "led", []⟩, ⟨"x", "42", []⟩, ⟨"widget", "", [3, 4]⟩]

/-- Witness for C6 at concrete inputs: setting `x = 42` on the widget
fragment leaves addresses 0-2 untouched, returns the fresh address 5,
and the copy's `x` child reads back `42`; the Edl and Adl `set` calls
rewrite exactly the matching line of a new string. -/
theorem C6_set_copy_on_write_witness :
    (∀ i, i < hBobW.length → hBobW2[i]? = hBobW[i]?) ∧ hBobW.length ≤ 5 ∧
    (∃ c, firstChildWithTag hBobW2 5 "x" = some c ∧ textAt hBobW2 c = "42") ∧
    edlSet "x 10\nfoo \"old\"" none [("foo", .str "new")]
      = .ok "x 10\nfoo \"new\"" ∧
    adlSet "  width=5\n  height=6" none [("width", .int 9)]
      = .ok "  width=9\n  height=6" := by
  have hset : bobSet 10 hBobW 2 none [("x", "42")] = some (.ok (hBobW2, 5)) := rfl
  obtain ⟨hframe, hfresh⟩ :=
    C6_set_copy_on_write.1 10 hBobW 2 none [("x", "42")] hBobW2 5 hset
  refine ⟨hframe, hfresh,
    C6_set_copy_on_write.2.1 10 hBobW 2 "x" "42" hBobW2 5 hset, ?_, ?_⟩
  · rw [C6_set_copy_on_write.2.2.1 "x 10\nfoo \"old\"" "foo" (.str "new")
      (by rfl) (by rfl)]
    rfl
  · rw [C6_set_copy_on_write.2.2.2 "  width=5\n  height=6" "width" (.int 9)
      (by rfl)]
    rfl

/-- Elimination of an equality between two mapped `Except` values: both
error identically or both succeed with related payloads. -/
theorem map_eq_cases {α β γ : Type} (f : α → γ) (g : β → γ)
    (x : Except Err α) (y : Except Err β) (h : x.map f = y.map g) :
    (∃ e, x = .error e ∧ y = .error e) ∨
    (∃ a b, x = .ok a ∧ y = .ok b ∧ f a = g b) := by
  cases x <;> cases y <;> simp_all [Except.map]

/-- The widget list produced by `Screen.component` for a non-`SignalRef`
component is independent of the instance registry: only the `SignalRef`
branch reads it. -/
theorem component_fst (cfg : ScreenCfg) (fuel : Nat) (reg₁ reg₂ : Registry)
    (c : Component) (b : Bounds) (gwi : Int) (al : Bool) (hc : c.isRef = false) :
    (Screen.component cfg fuel reg₁ c b gwi al).map Prod.fst =
    (Screen.component cfg fuel reg₂ c b gwi al).map Prod.fst := by
  cases c with
  | signalRef nm => simp [Component.isRef] at hc
  | signalR n pv w =>
    cases al <;> cases w <;>
      rcases hpre : Bounds.split b cfg.layout.label_width cfg.layout.spacing
        with e | ⟨l, r⟩ <;>
      simp [Screen.component.eq_def, hpre, Except.map]
  | signalW n pv w =>
    cases al <;> cases w <;>
      rcases hpre : Bounds.split b cfg.layout.label_width cfg.layout.spacing
        with e | ⟨l, r⟩ <;>
      simp [Screen.component.eq_def, hpre, Except.map]
  | signalX n pv lb v =>
    cases al <;>
      rcases hpre : Bounds.split b cfg.layout.label_width cfg.layout.spacing
        with e | ⟨l, r⟩ <;>
      simp [Screen.component.eq_def, hpre, Except.map]
  | group n l cs =>
    cases al <;>
      rcases hpre : Bounds.split b cfg.layout.label_width cfg.layout.spacing
        with e | ⟨l, r⟩ <;>
      simp [Screen.component.eq_def, hpre, Except.map]
  | signalRW n pv w rpv rw₀ =>
    cases al with
    | false =>
      cases w <;> cases rpv <;> cases rw₀ <;>
        simp only [Screen.component.eq_def, Except.map] <;>
        first
        | rfl
        | (rcases hs : Bounds.split b (Int.tdiv (b.w - cfg.layout.spacing) 2)
              cfg.layout.spacing with e₂ | ⟨l₂, r₂⟩ <;> simp [hs, Except.map])
    | true =>
      cases w <;> cases rpv <;> cases rw₀ <;>
        rcases hpre : Bounds.split b cfg.layout.label_width cfg.layout.spacing
          with e | ⟨l, r⟩ <;>
        simp only [Screen.component.eq_def, hpre, Except.map] <;>
        first
        | rfl
        | (rcases hs : Bounds.split r (Int.tdiv (r.w - cfg.layout.spacing) 2)
              cfg.layout.spacing with e₂ | ⟨l₂, r₂⟩ <;> simp [hs, Except.map])

/-- The widgets and final bounds produced by `Screen.make_component_widgets`
for a non-`SignalRef` component are independent of the instance registry. -/
theorem mcw_fst (cfg : ScreenCfg) (fuel : Nat) (reg₁ reg₂ : Registry)
    (c : Component) (b pb : Bounds) (al : Bool) (gwi : Int)
    (hc : c.isRef = false) :
    (Screen.make_component_widgets cfg fuel reg₁ c b pb al gwi).map
      (fun t => (t.1, t.2.1)) =
    (Screen.make_component_widgets cfg fuel reg₂ c b pb al gwi).map
      (fun t => (t.1, t.2.1)) := by
  unfold Screen.make_component_widgets
  rcases map_eq_cases Prod.fst Prod.fst _ _
      (component_fst cfg fuel reg₁ reg₂ c b gwi al hc)
    with ⟨e, h₁, h₂⟩ | ⟨⟨ws, r₁⟩, ⟨ws₂, r₂⟩, h₁, h₂, hw⟩
  · rw [h₁, h₂]
  · simp only at hw
    subst hw
    rw [h₁, h₂]
    dsimp only
    split
    · rcases map_eq_cases Prod.fst Prod.fst _ _
          (component_fst cfg fuel r₁ r₂ c
            { b with x := max_x ws cfg.layout.spacing, y := 0 } gwi al hc)
        with ⟨e, g₁, g₂⟩ | ⟨⟨vs, s₁⟩, ⟨vs₂, s₂⟩, g₁, g₂, hv⟩
      · rw [g₁, g₂]
      · simp only at hv
        subst hv
        rw [g₁, g₂]
        cases vs <;> rfl
    · rfl

/-- The bounds/widget outcome of the `Screen.group` child loop is
independent of the instance registry when no child is a back-reference
(a nested group errors identically either way). -/
theorem groupChildren_fst (cfg : ScreenCfg) (fuel : Nat) (pb : Bounds)
    (lb : Bool) :
    ∀ (cs : List Component), refFreeList cs = true →
    ∀ (cb : Bounds) (ws : List WidgetFactory) (r₁ r₂ : Registry),
    (Screen.groupChildren cfg fuel pb lb (cb, ws, r₁) cs).map
      (fun t => (t.1, t.2.1)) =
    (Screen.groupChildren cfg fuel pb lb (cb, ws, r₂) cs).map
      (fun t => (t.1, t.2.1)) := by
  intro cs
  induction cs with
  | nil => intro _ cb ws r₁ r₂; rfl
  | cons c rest ih =>
    intro hcs cb ws r₁ r₂
    have hchead : c.refFree = true := by
      have h := hcs
      simp only [refFreeList, Bool.and_eq_true] at h
      exact h.1
    have hrest : refFreeList rest = true := by
      have h := hcs
      simp only [refFreeList, Bool.and_eq_true] at h
      exact h.2
    cases c with
    | group n l kids => rfl
    | signalRef nm => simp [Component.refFree] at hchead
    | signalR n pv w =>
      simp only [Screen.groupChildren]
      rcases map_eq_cases _ _ _ _
          (mcw_fst cfg fuel r₁ r₂ (.signalR n pv w) cb pb lb 0 rfl)
        with ⟨e, g₁, g₂⟩ | ⟨⟨vs, bA, rA⟩, ⟨vs₂, bB, rB⟩, g₁, g₂, hv⟩
      · rw [g₁, g₂]
      · simp only [Prod.mk.injEq] at hv
        obtain ⟨hv1, hv2⟩ := hv
        subst hv1; subst hv2
        rw [g₁, g₂]
        exact ih hrest bA (ws ++ vs) rA rB
    | signalW n pv w =>
      simp only [Screen.groupChildren]
      rcases map_eq_cases _ _ _ _
          (mcw_fst cfg fuel r₁ r₂ (.signalW n pv w) cb pb lb 0 rfl)
        with ⟨e, g₁, g₂⟩ | ⟨⟨vs, bA, rA⟩, ⟨vs₂, bB, rB⟩, g₁, g₂, hv⟩
      · rw [g₁, g₂]
      · simp only [Prod.mk.injEq] at hv
        obtain ⟨hv1, hv2⟩ := hv
        subst hv1; subst hv2
        rw [g₁, g₂]
        exact ih hrest bA (ws ++ vs) rA rB
    | signalRW n pv w rpv rw₀ =>
      simp only [Screen.groupChildren]
      rcases map_eq_cases _ _ _ _
          (mcw_fst cfg fuel r₁ r₂ (.signalRW n pv w rpv rw₀) cb pb lb 0 rfl)
        with ⟨e, g₁, g₂⟩ | ⟨⟨vs, bA, rA⟩, ⟨vs₂, bB, rB⟩, g₁, g₂, hv⟩
      · rw [g₁, g₂]
      · simp only [Prod.mk.injEq] at hv
        obtain ⟨hv1, hv2⟩ := hv
        subst hv1; subst hv2
        rw [g₁, g₂]
        exact ih hrest bA (ws ++ vs) rA rB
    | signalX n pv lbl v =>
      simp only [Screen.groupChildren]
      rcases map_eq_cases _ _ _ _
          (mcw_fst cfg fuel r₁ r₂ (.signalX n pv lbl v) cb pb lb 0 rfl)
        with ⟨e, g₁, g₂⟩ | ⟨⟨vs, bA, rA⟩, ⟨vs₂, bB, rB⟩, g₁, g₂, hv⟩
      · rw [g₁, g₂]
      · simp only [Prod.mk.injEq] at hv
        obtain ⟨hv1, hv2⟩ := hv
        subst hv1; subst hv2
        rw [g₁, g₂]
        exact ih hrest bA (ws ++ vs) rA rB

/-- The group factory built by `Screen.group` is independent of the
instance registry when its children are back-reference-free. -/
theorem group_fst (cfg : ScreenCfg) (fuel : Nat) (gname : String)
    (glayout : GroupLayout) (children : List Component) (bounds : Bounds)
    (hk : refFreeList children = true) (r₁ r₂ : Registry) :
    (Screen.group cfg fuel r₁ gname glayout children bounds).map Prod.fst =
    (Screen.group cfg fuel r₂ gname glayout children bounds).map Prod.fst := by
  unfold Screen.group
  cases glayout with
  | other k => rfl
  | grid lb =>
    dsimp only
    rcases map_eq_cases _ _ _ _
        (groupChildren_fst cfg fuel bounds lb children hk
          { w := cfg.layout.label_width + cfg.layout.widget_width +
              2 * cfg.layout.spacing
            h := cfg.layout.widget_height } [] r₁ r₂)
      with ⟨e, g₁, g₂⟩ | ⟨⟨bA, vsA, rA⟩, ⟨bB, vsB, rB⟩, g₁, g₂, hv⟩
    · rw [g₁, g₂]
    · simp only [Prod.mk.injEq] at hv
      obtain ⟨hv1, hv2⟩ := hv
      subst hv1; subst hv2
      rw [g₁, g₂]
      rfl

/-- The group factory chosen by the column loop of `Screen.screen` is
independent of the instance registry when the group's children are
back-reference-free. -/
theorem tryColumns_fst (cfg : ScreenCfg) (fuel : Nat) (gname : String)
    (glayout : GroupLayout) (children : List Component)
    (hk : refFreeList children = true) :
    ∀ (cols : List (Int × Int)) (r₁ r₂ : Registry),
    (Screen.tryColumns cfg fuel gname glayout children r₁ cols).map Prod.fst =
    (Screen.tryColumns cfg fuel gname glayout children r₂ cols).map Prod.fst := by
  intro cols
  induction cols with
  | nil => intro r₁ r₂; rfl
  | cons p rest ih =>
    intro r₁ r₂
    obtain ⟨cx, cy⟩ := p
    simp only [Screen.tryColumns]
    rcases map_eq_cases Prod.fst Prod.fst _ _
        (group_fst cfg fuel gname glayout children
          ⟨cx, cy, 0, cfg.layout.max_height⟩ hk r₁ r₂)
      with ⟨e, g₁, g₂⟩ | ⟨⟨gf, rA⟩, ⟨gf₂, rB⟩, g₁, g₂, hv⟩
    · rw [g₁, g₂]
    · simp only at hv
      subst hv
      rw [g₁, g₂]
      dsimp only
      split
      · rfl
      · cases rest with
        | nil => rfl
        | cons q qs => exact ih rA rB

/-- One iteration of the `Screen.screen` main loop preserves agreement of
the registry-free state (columns, widgets, `widget_bounds`) between two
runs whose registries may differ, provided the component holds no
back-reference. -/
theorem screenStep_fst (cfg : ScreenCfg) (fuel : Nat) (c : Component)
    (hc : c.refFree = true) (st₁ st₂ : Screen.ScrState)
    (hobs : st₁.obs = st₂.obs) :
    (Screen.screenStep cfg fuel st₁ c).map Screen.ScrState.obs =
    (Screen.screenStep cfg fuel st₂ c).map Screen.ScrState.obs := by
  obtain ⟨r₁, cols₁, ws₁, wb₁⟩ := st₁
  obtain ⟨r₂, cols₂, ws₂, wb₂⟩ := st₂
  simp only [Screen.ScrState.obs, Prod.mk.injEq] at hobs
  obtain ⟨h1, h2, h3⟩ := hobs
  subst h1; subst h2; subst h3
  cases c with
  | signalRef nm => simp [Component.refFree] at hc
  | group gname glayout children =>
    have hk : refFreeList children = true := by
      simpa [Component.refFree] using hc
    simp only [Screen.screenStep]
    rcases map_eq_cases Prod.fst Prod.fst _ _
        (tryColumns_fst cfg fuel gname glayout children hk cols₁ r₁ r₂)
      with ⟨e, g₁, g₂⟩ | ⟨⟨gf, rA⟩, ⟨gf₂, rB⟩, g₁, g₂, hv⟩
    · rw [g₁, g₂]
    · simp only at hv
      subst hv
      rw [g₁, g₂]
      rfl
  | signalR n pv w =>
    simp only [Screen.screenStep]
    rcases map_eq_cases _ _ _ _
        (mcw_fst cfg fuel r₁ r₂ (.signalR n pv w) wb₁
          ⟨0, 0, 0, cfg.layout.max_height⟩ true cfg.layout.group_widget_indent
          rfl)
      with ⟨e, g₁, g₂⟩ | ⟨⟨vs, bA, rA⟩, ⟨vs₂, bB, rB⟩, g₁, g₂, hv⟩
    · rw [g₁, g₂]
    · simp only [Prod.mk.injEq] at hv
      obtain ⟨hv1, hv2⟩ := hv
      subst hv1; subst hv2
      rw [g₁, g₂]
      rfl
  | signalW n pv w =>
    simp only [Screen.screenStep]
    rcases map_eq_cases _ _ _ _
        (mcw_fst cfg fuel r₁ r₂ (.signalW n pv w) wb₁
          ⟨0, 0, 0, cfg.layout.max_height⟩ true cfg.layout.group_widget_indent
          rfl)
      with ⟨e, g₁, g₂⟩ | ⟨⟨vs, bA, rA⟩, ⟨vs₂, bB, rB⟩, g₁, g₂, hv⟩
    · rw [g₁, g₂]
    · simp only [Prod.mk.injEq] at hv
      obtain ⟨hv1, hv2⟩ := hv
      subst hv1; subst hv2
      rw [g₁, g₂]
      rfl
  | signalRW n pv w rpv rw₀ =>
    simp only [Screen.screenStep]
    rcases map_eq_cases _ _ _ _
        (mcw_fst cfg fuel r₁ r₂ (.signalRW n pv w rpv rw₀) wb₁
          ⟨0, 0, 0, cfg.layout.max_height⟩ true cfg.layout.group_widget_indent
          rfl)
      with ⟨e, g₁, g₂⟩ | ⟨⟨vs, bA, rA⟩, ⟨vs₂, bB, rB⟩, g₁, g₂, hv⟩
    · rw [g₁, g₂]
    · simp only [Prod.mk.injEq] at hv
      obtain ⟨hv1, hv2⟩ := hv
      subst hv1; subst hv2
      rw [g₁, g₂]
      rfl
  | signalX n pv lbl v =>
    simp only [Screen.screenStep]
    rcases map_eq_cases _ _ _ _
        (mcw_fst cfg fuel r₁ r₂ (.signalX n pv lbl v) wb₁
          ⟨0, 0, 0, cfg.layout.max_height⟩ true cfg.layout.group_widget_indent
          rfl)
      with ⟨e, g₁, g₂⟩ | ⟨⟨vs, bA, rA⟩, ⟨vs₂, bB, rB⟩, g₁, g₂, hv⟩
    · rw [g₁, g₂]
    · simp only [Prod.mk.injEq] at hv
      obtain ⟨hv1, hv2⟩ := hv
      subst hv1; subst hv2
      rw [g₁, g₂]
      rfl

/-- The whole `Screen.screen` loop preserves agreement of the
registry-free state between two runs whose registries may differ, for a
back-reference-free component list. -/
theorem screenLoop_obs (cfg : ScreenCfg) (fuel : Nat) :
    ∀ (comps : List Component), refFreeList comps = true →
    ∀ (st₁ st₂ : Screen.ScrState), st₁.obs = st₂.obs →
    (Screen.screenLoop cfg fuel st₁ comps).map Screen.ScrState.obs =
    (Screen.screenLoop cfg fuel st₂ comps).map Screen.ScrState.obs := by
  intro comps
  induction comps with
  | nil =>
    intro _ st₁ st₂ hobs
    simp only [Screen.screenLoop, Except.map]
    rw [hobs]
  | cons c rest ih =>
    intro hcs st₁ st₂ hobs
    have hchead : c.refFree = true := by
      have h := hcs
      simp only [refFreeList, Bool.and_eq_true] at h
      exact h.1
    have hrest : refFreeList rest = true := by
      have h := hcs
      simp only [refFreeList, Bool.and_eq_true] at h
      exact h.2
    simp only [Screen.screenLoop]
    rcases map_eq_cases Screen.ScrState.obs Screen.ScrState.obs _ _
        (screenStep_fst cfg fuel c hchead st₁ st₂ hobs)
      with ⟨e, g₁, g₂⟩ | ⟨stA, stB, g₁, g₂, hv⟩
    · rw [g₁, g₂]
    · rw [g₁, g₂]
      exact ih hrest stA stB hv

/-- The widget tree produced by `Screen.screen` for a
back-reference-free component list is the same whatever the `Screen`
instance's registry holds at entry. -/
theorem screen_fst (cfg : ScreenCfg) (fuel : Nat) (comps : List Component)
    (title : String) (hk : refFreeList comps = true) (r₁ r₂ : Registry) :
    Screen.screen cfg fuel r₁ comps title =
    Screen.screen cfg fuel r₂ comps title := by
  unfold Screen.screen
  dsimp only
  rcases map_eq_cases Screen.ScrState.obs Screen.ScrState.obs _ _
      (screenLoop_obs cfg fuel comps hk
        ⟨r₁, [(0, 0)], [],
          ⟨0, 0, cfg.layout.label_width + cfg.layout.widget_width +
            2 * cfg.layout.spacing, cfg.layout.widget_height⟩⟩
        ⟨r₂, [(0, 0)], [],
          ⟨0, 0, cfg.layout.label_width + cfg.layout.widget_width +
            2 * cfg.layout.spacing, cfg.layout.widget_height⟩⟩
        rfl)
    with ⟨e, g₁, g₂⟩ | ⟨stA, stB, g₁, g₂, hv⟩
  · rw [g₁, g₂]
  · rw [g₁, g₂]
    obtain ⟨rA, colsA, wsA, wbA⟩ := stA
    obtain ⟨rB, colsB, wsB, wbB⟩ := stB
    simp only [Screen.ScrState.obs, Prod.mk.injEq] at hv
    obtain ⟨-, h2, -⟩ := hv
    subst h2
    rfl

/-- C8: generation is deterministic end to end.  Running the pipeline -
`Screen.screen` layout followed by the `format()` stage over the bound
templates - twice from the same component tree, layout configuration,
template bindings and title gives identical fragment lists whenever both
runs start from fresh `Screen` instances (empty component registry); and
the single piece of instance state, the component registry, is no hidden
channel at all for back-reference-free trees: their output is the same
whatever the two registries hold at entry. -/
theorem C8_pipeline_deterministic {T : Type} (fb : FormatBindings T)
    (cfg : ScreenCfg) (fuel : Nat) (comps : List Component) (title : String)
    (r₁ r₂ : Registry) :
    (r₁ = [] → r₂ = [] →
      pipelineRun fb cfg fuel r₁ comps title =
      pipelineRun fb cfg fuel r₂ comps title) ∧
    (refFreeList comps = true →
      pipelineRun fb cfg fuel r₁ comps title =
      pipelineRun fb cfg fuel r₂ comps title) := by
  constructor
  · intro h₁ h₂
    subst h₁; subst h₂
    rfl
  · intro hk
    unfold pipelineRun
    rw [screen_fst cfg fuel comps title hk r₁ r₂]

/-- Witness for C8 at concrete inputs: two fresh-instance runs coincide;
the tree `compsW8` is back-reference-free, so a stale-registry run and a
fresh run coincide as well; and the common output evaluates to a
concrete five-fragment list. -/
theorem C8_pipeline_deterministic_witness :
    (pipelineRun fbW cfgDemo 2 [] compsW8 "Demo" =
       pipelineRun fbW cfgDemo 2 [] compsW8 "Demo") ∧
    (refFreeList compsW8 = true ∧
     pipelineRun fbW cfgDemo 2 regStaleW compsW8 "Demo" =
       pipelineRun fbW cfgDemo 2 [] compsW8 "Demo") ∧
    pipelineRun fbW cfgDemo 2 [] compsW8 "Demo" =
      Except.ok ["x 0\ny 0\nw 90\nh 20\ntitle \"Demo\"",
        "x 0\ny 0\nw 30\nh 20\ntext \"motor\"",
        "x 35\ny 0\nw 55\nh 20\npv \"P:X\"",
        "x 0\ny 0\nw 30\nh 20\ntext \"pos\"",
        "x 35\ny 0\nw 55\nh 20\npv \"P:Y\""] :=
  ⟨(C8_pipeline_deterministic fbW cfgDemo 2 compsW8 "Demo" [] []).1 rfl rfl,
   ⟨rfl,
    (C8_pipeline_deterministic fbW cfgDemo 2 compsW8 "Demo" regStaleW []).2 rfl⟩,
   rfl⟩

/-- A reused (stale) `Screen` instance is a real channel for trees with
back-references: the same inputs run against a fresh and a stale
registry give different outputs (a `KeyError` versus a resolved widget),
so the fresh-instance and back-reference-free hypotheses of the
determinism theorem are both load-bearing. -/
theorem pipeline_stale_registry_matters :
    pipelineRun fbW cfgDemo 2 [] [Component.signalRef "zz"] "Demo" ≠
    pipelineRun fbW cfgDemo 2 [("zz", Component.signalX "zz" "PV" "Go" "1")]
      [Component.signalRef "zz"] "Demo" := by
  intro h
  rw [show pipelineRun fbW cfgDemo 2 [] [Component.signalRef "zz"] "Demo" =
      Except.error (Err.keyError "zz") from rfl] at h
  rw [show pipelineRun fbW cfgDemo 2
      [("zz", Component.signalX "zz" "PV" "Go" "1")]
      [Component.signalRef "zz"] "Demo" =
      Except.ok ["x 0\ny 0\nw 91\nh 20\ntitle \"Demo\"",
        "x 0\ny 0\nw 30\nh 20\ntext \"zz\"",
        "x 36\ny 0\nw 30\nh 20\ntext \"Go\"",
        "x 71\ny 0\nw 20\nh 20\nlabel \"Go\"\npv \"PV\"\nvalue \"1\""]
      from rfl] at h
  exact Except.noConfusion h
